import Mathlib

/-!
# Piperika: run discovery and the pipe runner

A shallow embedding of `runner/runs/003_get_run.go`, `runner/pipe_runner.go` and the
`force` flag of `commands/build_command.go`.

Go's `int` is read as `Int`; no arithmetic is performed on ids, so no wrap-around is
involved.  A step mutates the shared state through a pointer, therefore every
operation returns the state it leaves behind together with its result, also when
the result is an error.  The remote service is a deterministic function of the
requests seen so far and of the current request.
-/

deriving instance DecidableEq for Except

namespace Piperika

/-! ## The library functions used by the step: `strconv` and `strings` -/

namespace strconv

/-- The decimal digit character of a number below ten. -/
def digitChar (d : Nat) : Char :=
  match d with
  | 0 => '0' | 1 => '1' | 2 => '2' | 3 => '3' | 4 => '4'
  | 5 => '5' | 6 => '6' | 7 => '7' | 8 => '8' | _ => '9'

/-- The value of a decimal digit character, if it is one. -/
def digitVal (c : Char) : Option Nat :=
  if c = '0' then some 0 else if c = '1' then some 1 else if c = '2' then some 2
  else if c = '3' then some 3 else if c = '4' then some 4 else if c = '5' then some 5
  else if c = '6' then some 6 else if c = '7' then some 7 else if c = '8' then some 8
  else if c = '9' then some 9 else none

/-- Decimal digits of `n`, most significant first; `fuel` bounds the number of digits. -/
def natDigits : Nat → Nat → List Char
  | 0, _ => []
  | fuel + 1, n =>
    if n < 10 then [digitChar n] else natDigits fuel (n / 10) ++ [digitChar (n % 10)]

/-- Decimal rendering of a natural number (it has at most `n + 1` digits). -/
def formatNat (n : Nat) : List Char := natDigits (n + 1) n

/-- Left-to-right accumulation of decimal digits; `none` on a character that is no digit. -/
def parseDigits : List Char → Nat → Option Nat
  | [], acc => some acc
  | c :: cs, acc =>
    match digitVal c with
    | some d => parseDigits cs (acc * 10 + d)
    | none => none

/-- The Go function `strconv.Itoa`: base-10 rendering with a leading minus sign for negatives. -/
def Itoa (i : Int) : String :=
  match i with
  | Int.ofNat n => String.mk (formatNat n)
  | Int.negSucc n => String.mk ('-' :: formatNat (n + 1))

/-- The error value of `strconv.Atoi` on input that is no decimal integer. -/
def syntaxError (s : String) : String :=
  "strconv.Atoi: parsing " ++ s ++ ": invalid syntax"

/-- The Go function `strconv.Atoi`: an optional sign followed by at least one decimal digit.
Ids are unbounded integers here, so the out-of-range error of the 64-bit original has
no counterpart. -/
def Atoi (s : String) : Except String Int :=
  match s.data with
  | [] => .error (syntaxError s)
  | c :: cs =>
    if c = '-' then
      match cs with
      | [] => .error (syntaxError s)
      | _ :: _ =>
        match parseDigits cs 0 with
        | some n => .ok (-(n : Int))
        | none => .error (syntaxError s)
    else if c = '+' then
      match cs with
      | [] => .error (syntaxError s)
      | _ :: _ =>
        match parseDigits cs 0 with
        | some n => .ok (n : Int)
        | none => .error (syntaxError s)
    else
      match parseDigits (c :: cs) 0 with
      | some n => .ok (n : Int)
      | none => .error (syntaxError s)

end strconv

namespace time

/-- The Go constant `time.Second`, a duration counted in nanoseconds. -/
def Second : Nat := 1000000000

end time

namespace strings

/-- The Go function `strings.Join`. -/
def Join (elems : List String) (sep : String) : String :=
  sep.intercalate elems

/-- The Go function `strings.Trim`: drops the leading and the trailing characters that
occur in `cutset`. -/
def Trim (s : String) (cutset : String) : String :=
  String.mk
    (((s.data.dropWhile (fun c => decide (c ∈ cutset.data))).reverse.dropWhile
      (fun c => decide (c ∈ cutset.data))).reverse)

end strings

/-! ## Remote entities and request options (package `models`) -/

namespace models

/-- Modelled from the spec: the declaration of the pipeline entity is missing; the step
reads its `PipelineId` only. -/
structure Pipeline where
  PipelineId : Int
deriving DecidableEq, Repr

/-- Modelled from the spec: the response of the pipelines query, an ordered list. -/
structure PipelinesLookupResponse where
  Pipelines : List Pipeline
deriving DecidableEq, Repr

/-- Modelled from the spec: a run of a pipeline; the step reads `RunId` and `RunNumber`. -/
structure Run where
  RunId : Int
  RunNumber : Int
deriving DecidableEq, Repr

/-- Modelled from the spec: the response of the runs query, an ordered list. -/
structure RunsResponse where
  Runs : List Run
deriving DecidableEq, Repr

/-- Modelled from the spec: the property bag of a resource version, carrying the commit. -/
structure ContentPropertyBag where
  CommitSha : String
deriving DecidableEq, Repr

/-- Modelled from the spec: a run resource version, linking a run to a resource snapshot. -/
structure RunResourceVersion where
  RunId : Int
  ResourceTypeCode : Int
  ResourceVersionContentPropertyBag : ContentPropertyBag
deriving DecidableEq, Repr

/-- Modelled from the spec: the response of the run-resource-versions query. -/
structure RunResourcesResponse where
  Resources : List RunResourceVersion
deriving DecidableEq, Repr

/-- Modelled from the spec: a triggerable step of a pipeline definition. -/
structure PipelineStep where
  Id : Int
deriving DecidableEq, Repr

/-- Modelled from the spec: the response of the pipeline-steps query. -/
structure PipelinesStepsResponse where
  Steps : List PipelineStep
deriving DecidableEq, Repr

/-- Options of the pipelines query; a field that a call site leaves out has Go's zero value. -/
structure GetPipelinesOptions where
  SortBy : String := ""
  FilterBy : String := ""
  Light : Bool := false
  PipesNames : String := ""
deriving DecidableEq, Repr

/-- Options of the runs query; a field that a call site leaves out has Go's zero value. -/
structure GetRunsOptions where
  PipelineIds : String := ""
  RunIds : String := ""
  Limit : Int := 0
  Light : Bool := false
  StatusCodes : String := ""
  SortBy : String := ""
  SortOrder : Int := 0
deriving DecidableEq, Repr

/-- Options of the run-resource-versions query. -/
structure GetRunResourcesOptions where
  PipelineSourceIds : String := ""
  RunIds : String := ""
  SortBy : String := ""
  SortOrder : Int := 0
deriving DecidableEq, Repr

/-- Options of the pipeline-steps query. -/
structure GetPipelinesStepsOptions where
  PipelineIds : String := ""
  PipelineSourceIds : String := ""
  Names : String := ""
deriving DecidableEq, Repr

end models

/-- The package-level constants that the step refers to and whose declarations are
missing: `models.GitRepo`, `models.Processing` and
`utils.DefaultPipelinesStepNameToTrigger`.  They are parameters of the embedding. -/
structure Constants where
  GitRepo : Int
  Processing : Int
  DefaultPipelinesStepNameToTrigger : String
deriving DecidableEq, Repr

/-! ## Effects: the requests sent to the remote service -/

/-- One observable effect of a step, in the order of occurrence. -/
inductive Event where
  | GetPipelines (o : models.GetPipelinesOptions)
  | GetRuns (o : models.GetRunsOptions)
  | GetRunResourceVersions (o : models.GetRunResourcesOptions)
  | GetPipelinesSteps (o : models.GetPipelinesStepsOptions)
  | TriggerPipelinesStep (stepId : Int)
  | Sleep (duration : Nat)
deriving DecidableEq, Repr

/-- Whether an event is a call of the remote trigger action. -/
def Event.isTrigger : Event → Bool
  | Event.TriggerPipelinesStep _ => true
  | _ => false

/-- Whether an event is a runs query. -/
def Event.isGetRuns : Event → Bool
  | Event.GetRuns _ => true
  | _ => false

/-- Whether an event is a run-resource-versions query. -/
def Event.isGetRunResourceVersions : Event → Bool
  | Event.GetRunResourceVersions _ => true
  | _ => false

/-- Number of trigger calls recorded in a log. -/
def triggerCalls (log : List Event) : Nat := (log.filter Event.isTrigger).length

/-- The remote service behind `requests.*`: each answer is a function of the events so far
and of the request.  `.error` is a transport or API failure. -/
structure PipelineHttpClient where
  GetPipelines : List Event → models.GetPipelinesOptions → Except String models.PipelinesLookupResponse
  GetRuns : List Event → models.GetRunsOptions → Except String models.RunsResponse
  GetRunResourceVersions :
    List Event → models.GetRunResourcesOptions → Except String models.RunResourcesResponse
  GetPipelinesSteps :
    List Event → models.GetPipelinesStepsOptions → Except String models.PipelinesStepsResponse
  TriggerPipelinesStep : List Event → Int → Except String Unit

/-- The directory configuration read from the context (`utils.DirConfig`). -/
structure DirConfig where
  PipelineName : String
deriving DecidableEq, Repr

/-- The values that the caller installs in the execution context and that this code
reads or could read: the client, the directory configuration and the `force` flag. -/
structure Context where
  HttpClient : PipelineHttpClient
  DirConfig : DirConfig
  ForceFlag : Bool

namespace datastruct

/-- Modelled from the spec: the shared pipeline state, whose declaration is missing.  The
fields are those of the data-model table. -/
structure PipedCommandState where
  GitBranch : String := ""
  HeadCommitSha : String := ""
  PipelinesSourceId : Int := 0
  PipelineId : Int := 0
  RunId : Int := 0
  RunNumber : Int := 0
  ShouldTriggerRun : Bool := false
  ForceFlag : Bool := false
deriving DecidableEq, Repr

/-- The status a `Tick` reports (`datastruct.RunStatus`). -/
structure RunStatus where
  Message : String := ""
  Done : Bool := false
deriving DecidableEq, Repr

end datastruct

open datastruct

/-- What a call leaves behind: its result, the state it mutated and the extended log. -/
structure Outcome (α : Type) where
  result : Except String α
  state : PipedCommandState
  log : List Event

namespace utils

/-- Modelled from the spec: `utils.Contains`, whose body is missing, tells whether the
run id is a recorded candidate, that is, occurs in the slice. -/
def Contains (s : List Int) (e : Int) : Bool := s.contains e

end utils

/-! ## The run-discovery step (`runner/runs/003_get_run.go`) -/

namespace runs

/-- The method `Init` of the step: both run fields get the sentinel `-1`. -/
def Init (_ctx : Context) (state : PipedCommandState) (log : List Event) : Outcome String :=
  { result := .ok "", state := { state with RunId := -1, RunNumber := -1 }, log := log }

/-- Options of the pipelines query of `Tick`. -/
def pipelinesOptions (ctx : Context) (state : PipedCommandState) : models.GetPipelinesOptions :=
  { SortBy := "latestRunId", FilterBy := state.GitBranch, Light := true,
    PipesNames := ctx.DirConfig.PipelineName }

/-- Options of the processing-runs query of `Tick`. -/
def processingRunsOptions (k : Constants) (pipelineId : Int) : models.GetRunsOptions :=
  { PipelineIds := strconv.Itoa pipelineId, Limit := 10, Light := true,
    StatusCodes := strconv.Itoa k.Processing, SortBy := "runNumber", SortOrder := -1 }

/-- The first loop of `Tick`: the decimal rendering of every run id, in order. -/
def runIdStrings (rs : List models.Run) : List String :=
  rs.map (fun run => strconv.Itoa run.RunId)

/-- Options of the run-resource-versions query of `Tick`. -/
def runResourcesOptions (state : PipedCommandState) (runIds : List String) :
    models.GetRunResourcesOptions :=
  { PipelineSourceIds := strconv.Itoa state.PipelinesSourceId,
    RunIds := strings.Trim (strings.Join runIds ",") "[]",
    SortBy := "resourceTypeCode", SortOrder := 1 }

/-- The second loop of `Tick`: resource versions of another type are skipped; the first
git-repository one whose commit is the head commit is appended and ends the loop. -/
def scanResources (k : Constants) (headCommitSha : String) :
    List models.RunResourceVersion → List Int → List Int
  | [], activeRunIds => activeRunIds
  | runResource :: rest, activeRunIds =>
    if runResource.ResourceTypeCode ≠ k.GitRepo then
      scanResources k headCommitSha rest activeRunIds
    else if runResource.ResourceVersionContentPropertyBag.CommitSha = headCommitSha then
      activeRunIds ++ [runResource.RunId]
    else
      scanResources k headCommitSha rest activeRunIds

/-- The third loop of `Tick`: every string is parsed back, a parse error ends `Tick`, and
the first parsed id that is among the active ones is stored in `RunId` and ends the loop. -/
def selectRun (activeRunIds : List Int) :
    List String → PipedCommandState → Except String PipedCommandState
  | [], state => .ok state
  | runIdStr :: rest, state =>
    match strconv.Atoi runIdStr with
    | .error err => .error err
    | .ok runId =>
      if utils.Contains activeRunIds runId then .ok { state with RunId := runId }
      else selectRun activeRunIds rest state

/-- The log once `Tick` has sent its pipelines query. -/
def logAfterPipelines (ctx : Context) (state : PipedCommandState) (log : List Event) :
    List Event :=
  log ++ [Event.GetPipelines (pipelinesOptions ctx state)]

/-- The log once `Tick` has sent its processing-runs query for the pipeline `pipelineId`. -/
def logAfterRuns (k : Constants) (ctx : Context) (state : PipedCommandState)
    (log : List Event) (pipelineId : Int) : List Event :=
  logAfterPipelines ctx state log ++ [Event.GetRuns (processingRunsOptions k pipelineId)]

/-- The log once `Tick` has sent its run-resource-versions query for the runs `rs`. -/
def logAfterResources (k : Constants) (ctx : Context) (state : PipedCommandState)
    (log : List Event) (pipelineId : Int) (rs : List models.Run) : List Event :=
  logAfterRuns k ctx state log pipelineId ++
    [Event.GetRunResourceVersions
      (runResourcesOptions { state with PipelineId := pipelineId } (runIdStrings rs))]

/-- The method `Tick` of the step.  The `force` flag of the context is not read. -/
def Tick (k : Constants) (ctx : Context) (state : PipedCommandState) (log : List Event) :
    Outcome RunStatus :=
  let log1 := logAfterPipelines ctx state log
  match ctx.HttpClient.GetPipelines log (pipelinesOptions ctx state) with
  | .error err => { result := .error err, state := state, log := log1 }
  | .ok pipeResp =>
    match pipeResp.Pipelines with
    | [] => { result := .error "failed to get the pipeline", state := state, log := log1 }
    | pipeline :: _ =>
      let state1 := { state with PipelineId := pipeline.PipelineId }
      let log2 := logAfterRuns k ctx state log pipeline.PipelineId
      match ctx.HttpClient.GetRuns log1 (processingRunsOptions k state1.PipelineId) with
      | .error err => { result := .error err, state := state1, log := log2 }
      | .ok runResp =>
        match runResp.Runs with
        | [] =>
          { result := .ok { Done := true },
            state := { state1 with ShouldTriggerRun := true }, log := log2 }
        | run :: rest =>
          let runIds := runIdStrings (run :: rest)
          let log3 := logAfterResources k ctx state log pipeline.PipelineId (run :: rest)
          match ctx.HttpClient.GetRunResourceVersions log2 (runResourcesOptions state1 runIds) with
          | .error err => { result := .error err, state := state1, log := log3 }
          | .ok runResourceResp =>
            match runResourceResp.Resources with
            | [] =>
              { result := .ok { Done := true },
                state := { state1 with ShouldTriggerRun := true }, log := log3 }
            | resource :: resources =>
              let activeRunIds := scanResources k state1.HeadCommitSha (resource :: resources) []
              match selectRun activeRunIds runIds state1 with
              | .error err => { result := .error err, state := state1, log := log3 }
              | .ok state2 =>
                if activeRunIds.length ≠ 0 ∧ state2.RunId ≠ -1 then
                  { result := .ok { Message := "Found an active run id", Done := true },
                    state := state2, log := log3 }
                else
                  { result := .ok { Message := "Triggering a new run", Done := true },
                    state := { state2 with ShouldTriggerRun := true }, log := log3 }

/-- Options of the pipeline-steps query of `OnComplete`. -/
def stepsOptions (k : Constants) (state : PipedCommandState) : models.GetPipelinesStepsOptions :=
  { PipelineIds := strconv.Itoa state.PipelineId,
    PipelineSourceIds := strconv.Itoa state.PipelinesSourceId,
    Names := k.DefaultPipelinesStepNameToTrigger }

/-- Options of the runs query that follows the trigger. -/
def latestRunOptions (state : PipedCommandState) : models.GetRunsOptions :=
  { PipelineIds := strconv.Itoa state.PipelineId, Limit := 1, Light := true,
    SortBy := "createdAt", SortOrder := -1 }

/-- Options of the runs query by run id. -/
def runByIdOptions (state : PipedCommandState) : models.GetRunsOptions :=
  { RunIds := strconv.Itoa state.RunId }

/-- The error of `OnComplete` when the step to trigger is not found. -/
def stepNotFoundError (k : Constants) : String :=
  "tried to trigger a run for step '" ++ k.DefaultPipelinesStepNameToTrigger ++
    "' but coulnd't fetch its Id"

/-- The second block of `OnComplete` (`if state.RunNumber == -1`): the run number is
fetched by run id when it is still the sentinel. -/
def resolveRunNumber (ctx : Context) (state : PipedCommandState) (log : List Event) :
    Outcome String :=
  if state.RunNumber = -1 then
    let log1 := log ++ [Event.GetRuns (runByIdOptions state)]
    match ctx.HttpClient.GetRuns log (runByIdOptions state) with
    | .error err => { result := .error err, state := state, log := log1 }
    | .ok runResp =>
      match runResp.Runs with
      | [] => { result := .error "failed to get the triggered run", state := state, log := log1 }
      | run :: _ =>
        { result := .ok "", state := { state with RunNumber := run.RunNumber }, log := log1 }
  else
    { result := .ok "", state := state, log := log }

/-- The log once `OnComplete` has sent its pipeline-steps query. -/
def logAfterSteps (k : Constants) (state : PipedCommandState) (log : List Event) : List Event :=
  log ++ [Event.GetPipelinesSteps (stepsOptions k state)]

/-- The log once `OnComplete` has called the trigger action on the step `stepId`. -/
def logAfterTrigger (k : Constants) (state : PipedCommandState) (log : List Event)
    (stepId : Int) : List Event :=
  logAfterSteps k state log ++ [Event.TriggerPipelinesStep stepId]

/-- The log once `OnComplete` has slept for three seconds after the trigger. -/
def logAfterSleep (k : Constants) (state : PipedCommandState) (log : List Event)
    (stepId : Int) : List Event :=
  logAfterTrigger k state log stepId ++ [Event.Sleep (3 * time.Second)]

/-- The log once `OnComplete` has queried the most recently created run. -/
def logAfterLatestRun (k : Constants) (state : PipedCommandState) (log : List Event)
    (stepId : Int) : List Event :=
  logAfterSleep k state log stepId ++ [Event.GetRuns (latestRunOptions state)]

/-- The method `OnComplete` of the step; the status argument is not read. -/
def OnComplete (k : Constants) (ctx : Context) (state : PipedCommandState)
    (_status : RunStatus) (log : List Event) : Outcome String :=
  if state.ShouldTriggerRun then
    let log1 := logAfterSteps k state log
    match ctx.HttpClient.GetPipelinesSteps log (stepsOptions k state) with
    | .error err => { result := .error err, state := state, log := log1 }
    | .ok pipeSteps =>
      match pipeSteps.Steps with
      | [] => { result := .error (stepNotFoundError k), state := state, log := log1 }
      | step :: _ =>
        let log2 := logAfterTrigger k state log step.Id
        match ctx.HttpClient.TriggerPipelinesStep log1 step.Id with
        | .error err => { result := .error err, state := state, log := log2 }
        | .ok _ =>
          let log3 := logAfterSleep k state log step.Id
          let log4 := logAfterLatestRun k state log step.Id
          match ctx.HttpClient.GetRuns log3 (latestRunOptions state) with
          | .error err => { result := .error err, state := state, log := log4 }
          | .ok runResp =>
            match runResp.Runs with
            | [] =>
              { result := .error "failed to get the triggered run", state := state, log := log4 }
            | run :: _ =>
              resolveRunNumber ctx
                { state with RunId := run.RunId, RunNumber := run.RunNumber } log4
  else
    resolveRunNumber ctx state log

end runs

/-! ## Vocabulary of the properties -/

/-- A resource version is of git-repository type and carries the head commit. -/
def isActiveFor (k : Constants) (headCommitSha : String) (r : models.RunResourceVersion) : Bool :=
  decide (r.ResourceTypeCode = k.GitRepo) &&
    decide (r.ResourceVersionContentPropertyBag.CommitSha = headCommitSha)

/-- The ids of the runs of a list, in order. -/
def runIdsOf (rs : List models.Run) : List Int := rs.map (fun run => run.RunId)

/-- Constants used in the concrete scenarios. -/
def sampleConstants : Constants :=
  { GitRepo := 1000, Processing := 4002, DefaultPipelinesStepNameToTrigger := "trigger_all" }

/-- A git-repository resource version of a run with a commit, for the concrete scenarios. -/
def gitResource (runId : Int) (sha : String) : models.RunResourceVersion :=
  { RunId := runId, ResourceTypeCode := sampleConstants.GitRepo,
    ResourceVersionContentPropertyBag := { CommitSha := sha } }

/-- A remote service whose answers do not depend on the history: it has one pipeline
(id 7) and one step (id 1), accepts every trigger, reports `processing` as the processing
runs, `resources` as their resource versions, `latest` as the most recently created runs
and `byId` as the answer to a lookup by run id. -/
def fixedClient (processing : List models.Run) (resources : List models.RunResourceVersion)
    (latest byId : List models.Run) : PipelineHttpClient :=
  { GetPipelines := fun _ _ => .ok { Pipelines := [{ PipelineId := 7 }] },
    GetRuns := fun _ o =>
      if o.StatusCodes ≠ "" then .ok { Runs := processing }
      else if o.RunIds ≠ "" then .ok { Runs := byId }
      else .ok { Runs := latest },
    GetRunResourceVersions := fun _ _ => .ok { Resources := resources },
    GetPipelinesSteps := fun _ _ => .ok { Steps := [{ Id := 1 }] },
    TriggerPipelinesStep := fun _ _ => .ok () }

/-- The context of the concrete scenarios over a given client. -/
def sampleContext (client : PipelineHttpClient) (force : Bool) : Context :=
  { HttpClient := client, DirConfig := { PipelineName := "build" }, ForceFlag := force }

/-- A state as the earlier steps leave it for the commit `abc` on branch `main`. -/
def sampleState : PipedCommandState :=
  { GitBranch := "main", HeadCommitSha := "abc", PipelinesSourceId := 3 }

/-! ## Concrete scenarios -/

/-- Two processing runs, 100 and 101 (by run number descending); the only resource version
belongs to run 101 and carries the head commit. -/
def reuseClient : PipelineHttpClient :=
  fixedClient [{ RunId := 100, RunNumber := 9 }, { RunId := 101, RunNumber := 8 }]
    [gitResource 101 "abc"] [] [{ RunId := 101, RunNumber := 8 }]

/-- The only processing run has the id `-1`, and its resource version carries the head
commit; the most recently created run is 502. -/
def sentinelClient : PipelineHttpClient :=
  fixedClient [{ RunId := -1, RunNumber := 9 }] [gitResource (-1) "abc"]
    [{ RunId := 502, RunNumber := 43 }] [{ RunId := -1, RunNumber := 9 }]

/-- Two processing runs, 101 (run number 9) before 100 (run number 8), both with a
resource version carrying the head commit; the one of run 100 is received first. -/
def anomalyClient : PipelineHttpClient :=
  fixedClient [{ RunId := 101, RunNumber := 9 }, { RunId := 100, RunNumber := 8 }]
    [gitResource 100 "abc", gitResource 101 "abc"] [] [{ RunId := 100, RunNumber := 8 }]

/-- No processing run; the run created by the trigger is 501 with run number 42. -/
def triggerClient : PipelineHttpClient :=
  fixedClient [] [] [{ RunId := 501, RunNumber := 42 }] []

/-- One processing run, 100, for which no resource version is returned. -/
def noResourceClient : PipelineHttpClient :=
  fixedClient [{ RunId := 100, RunNumber := 8 }] [] [{ RunId := 501, RunNumber := 42 }] []

/-- No processing run; the run created by the trigger is reported with run number `-1`,
and the lookup by run id returns nothing. -/
def unnumberedClient : PipelineHttpClient :=
  fixedClient [] [] [{ RunId := 501, RunNumber := -1 }] []

/-- A remote service on which the pipelines query finds nothing. -/
def noPipelineClient : PipelineHttpClient :=
  { GetPipelines := fun _ _ => .ok { Pipelines := [] },
    GetRuns := fun _ _ => .ok { Runs := [{ RunId := 100, RunNumber := 8 }] },
    GetRunResourceVersions := fun _ _ => .ok { Resources := [gitResource 100 "abc"] },
    GetPipelinesSteps := fun _ _ => .ok { Steps := [{ Id := 1 }] },
    TriggerPipelinesStep := fun _ _ => .ok () }

/-- The sample state after `Init`. -/
def preparedState : PipedCommandState :=
  { sampleState with RunId := -1, RunNumber := -1 }

/-- The sample state after `Init`, decided to trigger, with pipeline 7 resolved. -/
def triggeringState : PipedCommandState :=
  { preparedState with PipelineId := 7, ShouldTriggerRun := true }

/-- The outcome of `Tick` in the reuse scenario. -/
def reuseTick : Outcome RunStatus :=
  runs.Tick sampleConstants (sampleContext reuseClient false) preparedState []

/-- The outcome of `OnComplete` after `reuseTick`. -/
def reuseComplete : Outcome String :=
  runs.OnComplete sampleConstants (sampleContext reuseClient false) reuseTick.state
    { Message := "Found an active run id", Done := true } reuseTick.log

/-- Whether a trigger call has been made so far. -/
def triggered (log : List Event) : Bool := log.any Event.isTrigger

/-- A remote service with one pipeline (id 7) and one step (id 1) that has no run until a
trigger call has been made; from then on it reports `processing` as the processing runs,
`resources` as their resource versions and `created` as the most recently created run,
also as the answer to a lookup by run id. -/
def historyClient (processing : List models.Run) (resources : List models.RunResourceVersion)
    (created : models.Run) : PipelineHttpClient :=
  { GetPipelines := fun _ _ => .ok { Pipelines := [{ PipelineId := 7 }] },
    GetRuns := fun log o =>
      if triggered log then
        if o.StatusCodes ≠ "" then .ok { Runs := processing } else .ok { Runs := [created] }
      else .ok { Runs := [] },
    GetRunResourceVersions := fun log _ =>
      if triggered log then .ok { Resources := resources } else .ok { Resources := [] },
    GetPipelinesSteps := fun _ _ => .ok { Steps := [{ Id := 1 }] },
    TriggerPipelinesStep := fun _ _ => .ok () }

/-- After the trigger the created run 501 is the only processing run, with a resource
version carrying the head commit. -/
def idempotentClient : PipelineHttpClient :=
  historyClient [{ RunId := 501, RunNumber := 42 }] [gitResource 501 "abc"]
    { RunId := 501, RunNumber := 42 }

/-- After the trigger two runs are processing for the head commit: the created run 501 and
a more recent run 502, whose resource version is received first. -/
def raceClient : PipelineHttpClient :=
  historyClient [{ RunId := 502, RunNumber := 43 }, { RunId := 501, RunNumber := 42 }]
    [gitResource 502 "abc", gitResource 501 "abc"] { RunId := 501, RunNumber := 42 }

/-- The first invocation of run discovery on a client, from the sample state and an empty
log: the outcome of `Tick`. -/
def firstTick (client : PipelineHttpClient) : Outcome RunStatus :=
  runs.Tick sampleConstants (sampleContext client false) preparedState []

/-- The first invocation of run discovery on a client: the outcome of `OnComplete`. -/
def firstComplete (client : PipelineHttpClient) : Outcome String :=
  runs.OnComplete sampleConstants (sampleContext client false) (firstTick client).state
    { Done := true } (firstTick client).log

/-- The second invocation, on a new state for the same commit and after the events of the
first one: the outcome of `Tick`. -/
def secondTick (client : PipelineHttpClient) : Outcome RunStatus :=
  runs.Tick sampleConstants (sampleContext client false) preparedState (firstComplete client).log

/-- The second invocation: the outcome of `OnComplete`. -/
def secondComplete (client : PipelineHttpClient) : Outcome String :=
  runs.OnComplete sampleConstants (sampleContext client false) (secondTick client).state
    { Message := "Found an active run id", Done := true } (secondTick client).log

/-! ## The pipe runner (`runner/pipe_runner.go`) -/

namespace runner

/-- The interface `datastruct.Runner`: the three phases of a step. -/
structure Runner where
  Init : Context → PipedCommandState → List Event → Outcome String
  Tick : Context → PipedCommandState → List Event → Outcome RunStatus
  OnComplete : Context → PipedCommandState → RunStatus → List Event → Outcome String

/-- The constructor `New003GetRun` of the run-discovery step. -/
def New003GetRun (k : Constants) : Runner :=
  { Init := runs.Init, Tick := runs.Tick k, OnComplete := runs.OnComplete k }

/-- The interface `PipedCommand`: `Run` works on the shared state and returns an error or
nothing. -/
structure PipedCommand where
  Run : Context → PipedCommandState → List Event → Outcome Unit

/-- The type `backoffConfig`: an interval, in nanoseconds, and a number of retries. -/
structure backoffConfig where
  interval : Nat
  maxRetries : Nat
deriving DecidableEq, Repr

/-- The variable `defaultBackoffConfig`. -/
def defaultBackoffConfig : backoffConfig := { interval := time.Second, maxRetries := 30 }

/-- The functions that `cmds` calls and whose bodies are missing: the retrying wrapper and
the constructors of the five steps.  They are parameters of the embedding. -/
structure Declarations where
  NewRetryingPipedCommand : String → Runner → backoffConfig → PipedCommand
  New001ValidateGitState : Runner
  New002PipelinesSourcesBranchSync : Runner
  New003PipelinesFindRun : Runner
  New004PipelinesWaitRun : Runner
  New005PipelinesPrintRun : Runner

/-- The variable `cmds`: the five wrapped steps, in order. -/
def cmds (d : Declarations) : List PipedCommand :=
  [ d.NewRetryingPipedCommand "validate git state" d.New001ValidateGitState defaultBackoffConfig,
    d.NewRetryingPipedCommand "sync pipelines sources" d.New002PipelinesSourcesBranchSync
      defaultBackoffConfig,
    d.NewRetryingPipedCommand "find or trigger active run" d.New003PipelinesFindRun
      defaultBackoffConfig,
    d.NewRetryingPipedCommand "wait for run to finish" d.New004PipelinesWaitRun
      defaultBackoffConfig,
    d.NewRetryingPipedCommand "print run results" d.New005PipelinesPrintRun
      defaultBackoffConfig ]

/-- What `RunPipe` leaves behind: the returned error (`none` for `nil`), the shared state,
the log, and the positions in `cmds` of the commands whose `Run` was called, in call
order. -/
structure PipeResult where
  err : Option String
  state : PipedCommandState
  log : List Event
  ran : List Nat

/-- The loop of `RunPipe` over the remaining commands; `i` is the position of the first of
them. -/
def runLoop (ctx : Context) :
    List PipedCommand → Nat → PipedCommandState → List Event → List Nat → PipeResult
  | [], _, state, log, ran => { err := none, state := state, log := log, ran := ran }
  | cmd :: rest, i, state, log, ran =>
    match (cmd.Run ctx state log).result with
    | .error err =>
      { err := some err, state := (cmd.Run ctx state log).state,
        log := (cmd.Run ctx state log).log, ran := ran ++ [i] }
    | .ok _ =>
      runLoop ctx rest (i + 1) (cmd.Run ctx state log).state (cmd.Run ctx state log).log
        (ran ++ [i])

/-- The function `RunPipe`: a zero-valued state is created and the commands run on it. -/
def RunPipe (d : Declarations) (ctx : Context) (log : List Event) : PipeResult :=
  runLoop ctx (cmds d) 0 {} log []

/-- The outcome of the command at position `i` when the commands before it have run in
order on the state and log that their predecessors left. -/
def outcomeAt (ctx : Context) :
    List PipedCommand → PipedCommandState → List Event → Nat → Option (Outcome Unit)
  | [], _, _, _ => none
  | cmd :: _, state, log, 0 => some (cmd.Run ctx state log)
  | cmd :: rest, state, log, i + 1 =>
    outcomeAt ctx rest (cmd.Run ctx state log).state (cmd.Run ctx state log).log i

/-- The error that the command at position `i` returns in such a run, if it returns one. -/
def errorAt (ctx : Context) (cs : List PipedCommand) (state : PipedCommandState)
    (log : List Event) (i : Nat) : Option String :=
  match outcomeAt ctx cs state log i with
  | some o =>
    match o.result with
    | .error err => some err
    | .ok _ => none
  | none => none

/-- Whether the command at position `i` returns no error in such a run. -/
def succeedsAt (ctx : Context) (cs : List PipedCommand) (state : PipedCommandState)
    (log : List Event) (i : Nat) : Bool :=
  match outcomeAt ctx cs state log i with
  | some o =>
    match o.result with
    | .error _ => false
    | .ok _ => true
  | none => false

/-- The error returned by step `i` of `cmds` in a run of the pipe, if it returns one. -/
def stepError (d : Declarations) (ctx : Context) (log : List Event) (i : Nat) : Option String :=
  errorAt ctx (cmds d) {} log i

/-- Whether step `i` of `cmds` returns no error in a run of the pipe. -/
def stepSucceeds (d : Declarations) (ctx : Context) (log : List Event) (i : Nat) : Bool :=
  succeedsAt ctx (cmds d) {} log i

/-- A runner for the concrete scenarios: every phase succeeds at once. -/
def idleRunner : Runner :=
  { Init := fun _ state log => { result := .ok "", state := state, log := log },
    Tick := fun _ state log => { result := .ok { Done := true }, state := state, log := log },
    OnComplete := fun _ state _ log => { result := .ok "", state := state, log := log } }

/-- A runner for the concrete scenarios whose `Tick` fails with the given error. -/
def failingRunner (err : String) : Runner :=
  { idleRunner with
    Tick := fun _ state log => { result := .error err, state := state, log := log } }

/-- A wrapper for the concrete scenarios: `Init`, a single `Tick`, then `OnComplete`, the
first error being returned. -/
def singleAttempt (_label : String) (r : Runner) (_config : backoffConfig) : PipedCommand :=
  { Run := fun ctx state log =>
      match (r.Init ctx state log).result with
      | .error err =>
        { result := .error err, state := (r.Init ctx state log).state,
          log := (r.Init ctx state log).log }
      | .ok _ =>
        match (r.Tick ctx (r.Init ctx state log).state (r.Init ctx state log).log).result with
        | .error err =>
          { result := .error err,
            state := (r.Tick ctx (r.Init ctx state log).state (r.Init ctx state log).log).state,
            log := (r.Tick ctx (r.Init ctx state log).state (r.Init ctx state log).log).log }
        | .ok status =>
          match (r.OnComplete ctx
              (r.Tick ctx (r.Init ctx state log).state (r.Init ctx state log).log).state status
              (r.Tick ctx (r.Init ctx state log).state (r.Init ctx state log).log).log).result with
          | .error err =>
            { result := .error err,
              state := (r.OnComplete ctx
                (r.Tick ctx (r.Init ctx state log).state (r.Init ctx state log).log).state status
                (r.Tick ctx (r.Init ctx state log).state (r.Init ctx state log).log).log).state,
              log := (r.OnComplete ctx
                (r.Tick ctx (r.Init ctx state log).state (r.Init ctx state log).log).state status
                (r.Tick ctx (r.Init ctx state log).state (r.Init ctx state log).log).log).log }
          | .ok _ =>
            { result := .ok (),
              state := (r.OnComplete ctx
                (r.Tick ctx (r.Init ctx state log).state (r.Init ctx state log).log).state status
                (r.Tick ctx (r.Init ctx state log).state (r.Init ctx state log).log).log).state,
              log := (r.OnComplete ctx
                (r.Tick ctx (r.Init ctx state log).state (r.Init ctx state log).log).state status
                (r.Tick ctx (r.Init ctx state log).state (r.Init ctx state log).log).log).log } }

/-- The steps of a concrete scenario: the first two succeed, run discovery fails with
"no pipeline", and the last two would fail as well if they were run. -/
def brokenDiscovery : Declarations :=
  { NewRetryingPipedCommand := singleAttempt,
    New001ValidateGitState := idleRunner,
    New002PipelinesSourcesBranchSync := idleRunner,
    New003PipelinesFindRun := failingRunner "no pipeline",
    New004PipelinesWaitRun := failingRunner "wait failed",
    New005PipelinesPrintRun := failingRunner "print failed" }

end runner

/-- The sample state after a `Tick` that selected run 101 of pipeline 7. -/
def reusingState : PipedCommandState :=
  { preparedState with PipelineId := 7, RunId := 101 }

/-- A remote service whose pipeline has no step with the name to trigger. -/
def noStepClient : PipelineHttpClient :=
  { GetPipelines := fun _ _ => .ok { Pipelines := [{ PipelineId := 7 }] },
    GetRuns := fun _ _ => .ok { Runs := [{ RunId := 501, RunNumber := 42 }] },
    GetRunResourceVersions := fun _ _ => .ok { Resources := [] },
    GetPipelinesSteps := fun _ _ => .ok { Steps := [] },
    TriggerPipelinesStep := fun _ _ => .ok () }

/-- Two processing runs, 100 and 101; the only resource version belongs to run 101 and
carries the head commit; a trigger creates run 501 with run number 42. -/
def staleFlagClient : PipelineHttpClient :=
  fixedClient [{ RunId := 100, RunNumber := 9 }, { RunId := 101, RunNumber := 8 }]
    [gitResource 101 "abc"] [{ RunId := 501, RunNumber := 42 }] [{ RunId := 101, RunNumber := 8 }]

/-- The sample state with the trigger flag already set before the step starts. -/
def flaggedState : PipedCommandState :=
  { sampleState with ShouldTriggerRun := true }

/-- The outcome of `Tick` after `Init` on the flagged state. -/
def staleFlagTick : Outcome RunStatus :=
  runs.Tick sampleConstants (sampleContext staleFlagClient false)
    (runs.Init (sampleContext staleFlagClient false) flaggedState []).state []

/-! ## The retrying step wrapper -/

namespace runner

/-- What the retry loop leaves behind: the status of the attempt that completed or the
error, the state, the log, and the number of calls of `Tick`. -/
structure RetryResult where
  result : Except String RunStatus
  state : PipedCommandState
  log : List Event
  attempts : Nat

/-- The error of a step that did not complete within its retries; it names the label. -/
def retryExhausted (label : String) : String :=
  "retries exhausted: " ++ label

/-- Modelled from the spec: the retry loop of the retrying step wrapper, whose code is
missing.  `Tick` is called until it returns a status with `Done = true`, with a sleep of
`interval` between two attempts, for at most `remaining` attempts; an error of `Tick` ends
the loop at once and is returned with the label attached; when the attempts are used up
the loop fails with the error that names the label. -/
def retryTick (r : Runner) (ctx : Context) (label : String) (config : backoffConfig) :
    Nat → PipedCommandState → List Event → Nat → RetryResult
  | 0, state, log, attempts =>
    { result := .error (retryExhausted label), state := state, log := log,
      attempts := attempts }
  | remaining + 1, state, log, attempts =>
    match (r.Tick ctx state log).result with
    | .error err =>
      { result := .error (label ++ ": " ++ err), state := (r.Tick ctx state log).state,
        log := (r.Tick ctx state log).log, attempts := attempts + 1 }
    | .ok status =>
      if status.Done then
        { result := .ok status, state := (r.Tick ctx state log).state,
          log := (r.Tick ctx state log).log, attempts := attempts + 1 }
      else if remaining = 0 then
        { result := .error (retryExhausted label), state := (r.Tick ctx state log).state,
          log := (r.Tick ctx state log).log, attempts := attempts + 1 }
      else
        retryTick r ctx label config remaining (r.Tick ctx state log).state
          ((r.Tick ctx state log).log ++ [Event.Sleep config.interval]) (attempts + 1)

/-- Modelled from the spec: the retrying step wrapper `NewRetryingPipedCommand`, whose code
is missing.  `Init` is called once and its error ends the run; then the retry loop runs;
on completion `OnComplete` is called once and its error is returned. -/
def NewRetryingPipedCommand (label : String) (r : Runner) (config : backoffConfig) :
    PipedCommand :=
  { Run := fun ctx state log =>
      match (r.Init ctx state log).result with
      | .error err =>
        { result := .error err, state := (r.Init ctx state log).state,
          log := (r.Init ctx state log).log }
      | .ok _ =>
        match (retryTick r ctx label config config.maxRetries (r.Init ctx state log).state
            (r.Init ctx state log).log 0).result with
        | .error err =>
          { result := .error err,
            state := (retryTick r ctx label config config.maxRetries
              (r.Init ctx state log).state (r.Init ctx state log).log 0).state,
            log := (retryTick r ctx label config config.maxRetries
              (r.Init ctx state log).state (r.Init ctx state log).log 0).log }
        | .ok status =>
          match (r.OnComplete ctx
              (retryTick r ctx label config config.maxRetries
                (r.Init ctx state log).state (r.Init ctx state log).log 0).state status
              (retryTick r ctx label config config.maxRetries
                (r.Init ctx state log).state (r.Init ctx state log).log 0).log).result with
          | .error err =>
            { result := .error err,
              state := (r.OnComplete ctx
                (retryTick r ctx label config config.maxRetries
                  (r.Init ctx state log).state (r.Init ctx state log).log 0).state status
                (retryTick r ctx label config config.maxRetries
                  (r.Init ctx state log).state (r.Init ctx state log).log 0).log).state,
              log := (r.OnComplete ctx
                (retryTick r ctx label config config.maxRetries
                  (r.Init ctx state log).state (r.Init ctx state log).log 0).state status
                (retryTick r ctx label config config.maxRetries
                  (r.Init ctx state log).state (r.Init ctx state log).log 0).log).log }
          | .ok _ =>
            { result := .ok (),
              state := (r.OnComplete ctx
                (retryTick r ctx label config config.maxRetries
                  (r.Init ctx state log).state (r.Init ctx state log).log 0).state status
                (retryTick r ctx label config config.maxRetries
                  (r.Init ctx state log).state (r.Init ctx state log).log 0).log).state,
              log := (r.OnComplete ctx
                (retryTick r ctx label config config.maxRetries
                  (r.Init ctx state log).state (r.Init ctx state log).log 0).state status
                (retryTick r ctx label config config.maxRetries
                  (r.Init ctx state log).state (r.Init ctx state log).log 0).log).log } }

/-- The number of calls of `Tick` when the wrapped step runs: none if `Init` fails. -/
def tickAttempts (label : String) (r : Runner) (config : backoffConfig) (ctx : Context)
    (state : PipedCommandState) (log : List Event) : Nat :=
  match (r.Init ctx state log).result with
  | .error _ => 0
  | .ok _ =>
    (retryTick r ctx label config config.maxRetries (r.Init ctx state log).state
      (r.Init ctx state log).log 0).attempts

end runner

/-- The context with the `force` flag as the caller installs it
(`context.WithValue(ctx, utils.ForceFlag, ...)` in `buildCommand`). -/
def withForceFlag (force : Bool) (ctx : Context) : Context :=
  { ctx with ForceFlag := force }

/-! ## Lemmas on the library functions -/

namespace strconv

theorem digitVal_digitChar (d : Nat) (h : d < 10) : digitVal (digitChar d) = some d := by
  interval_cases d <;> rfl

theorem digitChar_ne_minus (d : Nat) : digitChar d ≠ '-' := by
  unfold digitChar
  split <;> decide

theorem digitChar_ne_plus (d : Nat) : digitChar d ≠ '+' := by
  unfold digitChar
  split <;> decide

theorem parseDigits_append (xs : List Char) (c : Char) (acc : Nat) :
    parseDigits (xs ++ [c]) acc =
      (parseDigits xs acc).bind (fun v => (digitVal c).map (fun d => v * 10 + d)) := by
  induction xs generalizing acc with
  | nil =>
    simp only [List.nil_append, parseDigits, Option.some_bind]
    cases digitVal c <;> rfl
  | cons x xs ih =>
    simp only [List.cons_append, parseDigits]
    cases digitVal x with
    | none => rfl
    | some d => exact ih _

theorem parseDigits_natDigits (fuel n : Nat) (h : n < fuel) :
    parseDigits (natDigits fuel n) 0 = some n := by
  induction fuel generalizing n with
  | zero => omega
  | succ fuel ih =>
    unfold natDigits
    by_cases hn : n < 10
    · simp [hn, parseDigits, digitVal_digitChar n hn]
    · have hlt : n / 10 < fuel := by omega
      have hmod : n % 10 < 10 := Nat.mod_lt _ (by decide)
      simp only [hn, if_false, parseDigits_append, ih _ hlt, Option.some_bind,
        digitVal_digitChar _ hmod, Option.map_some']
      congr 1
      omega

theorem natDigits_head (fuel n : Nat) (h : n < fuel) :
    ∃ d cs, natDigits fuel n = digitChar d :: cs := by
  induction fuel generalizing n with
  | zero => omega
  | succ fuel ih =>
    unfold natDigits
    by_cases hn : n < 10
    · exact ⟨n, [], by simp [hn]⟩
    · obtain ⟨d, cs, hd⟩ := ih (n / 10) (by omega)
      exact ⟨d, cs ++ [digitChar (n % 10)], by simp [hn, hd]⟩

/-- Parsing the decimal rendering of an integer succeeds and gives the integer back. -/
theorem Atoi_Itoa (i : Int) : Atoi (Itoa i) = .ok i := by
  cases i with
  | ofNat n =>
    obtain ⟨d, cs, hd⟩ := natDigits_head (n + 1) n (by omega)
    have hp := parseDigits_natDigits (n + 1) n (by omega)
    simp only [Itoa, Atoi, formatNat]
    rw [hd] at hp ⊢
    simp only [digitChar_ne_minus, digitChar_ne_plus, if_false, hp]
    rfl
  | negSucc n =>
    obtain ⟨d, cs, hd⟩ := natDigits_head (n + 1 + 1) (n + 1) (by omega)
    have hp := parseDigits_natDigits (n + 1 + 1) (n + 1) (by omega)
    simp only [Itoa, Atoi, formatNat]
    rw [hd] at hp ⊢
    simp only [if_true, hp]
    rfl

end strconv

/-! ## Lemmas on the loops of `Tick` -/

namespace runs

theorem scanResources_eq (k : Constants) (head : String)
    (rs : List models.RunResourceVersion) (acc : List Int) :
    scanResources k head rs acc =
      match rs.find? (isActiveFor k head) with
      | some r => acc ++ [r.RunId]
      | none => acc := by
  induction rs with
  | nil => rfl
  | cons r rs ih =>
    unfold scanResources
    by_cases h1 : r.ResourceTypeCode = k.GitRepo
    · by_cases h2 : r.ResourceVersionContentPropertyBag.CommitSha = head
      · simp [List.find?_cons, isActiveFor, h1, h2]
      · simp [List.find?_cons, isActiveFor, h1, h2, ih]
    · simp [List.find?_cons, isActiveFor, h1, ih]

theorem selectRun_runIdStrings (active : List Int) (rs : List models.Run)
    (st : PipedCommandState) :
    selectRun active (runIdStrings rs) st =
      .ok (match rs.find? (fun run => utils.Contains active run.RunId) with
           | some run => { st with RunId := run.RunId }
           | none => st) := by
  induction rs with
  | nil => rfl
  | cons run rs ih =>
    simp only [runIdStrings, List.map_cons, selectRun, strconv.Atoi_Itoa, List.find?_cons]
    by_cases h : utils.Contains active run.RunId = true
    · simp [h]
    · simp only [h, if_false]
      simp only [runIdStrings] at ih
      rw [ih]
      simp [h]

end runs


/-! ## Lemmas on the log -/

theorem triggerCalls_append (l m : List Event) :
    triggerCalls (l ++ m) = triggerCalls l + triggerCalls m := by
  simp [triggerCalls, List.filter_append]

namespace runs

theorem resolveRunNumber_triggerCalls (ctx : Context) (st : PipedCommandState)
    (log : List Event) :
    triggerCalls (resolveRunNumber ctx st log).log = triggerCalls log := by
  unfold resolveRunNumber
  split
  · split
    · simp [triggerCalls, List.filter_append, Event.isTrigger]
    · split <;> simp [triggerCalls, List.filter_append, Event.isTrigger]
  · rfl

theorem resolveRunNumber_RunId (ctx : Context) (st : PipedCommandState) (log : List Event) :
    (resolveRunNumber ctx st log).state.RunId = st.RunId := by
  unfold resolveRunNumber
  split
  · split
    · rfl
    · split <;> rfl
  · rfl

theorem logAfterResources_triggerCalls (k : Constants) (ctx : Context)
    (st : PipedCommandState) (log : List Event) (pid : Int) (rs : List models.Run) :
    triggerCalls (logAfterResources k ctx st log pid rs) = triggerCalls log := by
  simp [logAfterResources, logAfterRuns, logAfterPipelines, triggerCalls, List.filter_append,
    Event.isTrigger]

/-- When the three queries of `Tick` are answered with a pipeline, the runs `run :: rest`
and the resource versions `resources`, the loops decide the outcome. -/
theorem Tick_of_answers (k : Constants) (ctx : Context) (s : PipedCommandState)
    (log : List Event) (pipeline : models.Pipeline) (pipelines : List models.Pipeline)
    (run : models.Run) (rest : List models.Run)
    (resource : models.RunResourceVersion) (resources : List models.RunResourceVersion)
    (hp : ctx.HttpClient.GetPipelines log (pipelinesOptions ctx s) =
      .ok { Pipelines := pipeline :: pipelines })
    (hr : ctx.HttpClient.GetRuns (logAfterPipelines ctx s log)
      (processingRunsOptions k pipeline.PipelineId) = .ok { Runs := run :: rest })
    (hv : ctx.HttpClient.GetRunResourceVersions (logAfterRuns k ctx s log pipeline.PipelineId)
      (runResourcesOptions { s with PipelineId := pipeline.PipelineId }
        (runIdStrings (run :: rest))) = .ok { Resources := resource :: resources }) :
    Tick k ctx s log =
      if (scanResources k s.HeadCommitSha (resource :: resources) []).length ≠ 0 ∧
          (match (run :: rest).find? (fun x => utils.Contains
              (scanResources k s.HeadCommitSha (resource :: resources) []) x.RunId) with
            | some x => x.RunId
            | none => s.RunId) ≠ -1 then
        { result := .ok { Message := "Found an active run id", Done := true },
          state := { s with
            PipelineId := pipeline.PipelineId,
            RunId := match (run :: rest).find? (fun x => utils.Contains
                (scanResources k s.HeadCommitSha (resource :: resources) []) x.RunId) with
              | some x => x.RunId
              | none => s.RunId },
          log := logAfterResources k ctx s log pipeline.PipelineId (run :: rest) }
      else
        { result := .ok { Message := "Triggering a new run", Done := true },
          state := { s with
            PipelineId := pipeline.PipelineId,
            ShouldTriggerRun := true,
            RunId := match (run :: rest).find? (fun x => utils.Contains
                (scanResources k s.HeadCommitSha (resource :: resources) []) x.RunId) with
              | some x => x.RunId
              | none => s.RunId },
          log := logAfterResources k ctx s log pipeline.PipelineId (run :: rest) } := by
  unfold Tick
  simp only [hp, hr, hv, selectRun_runIdStrings]
  cases hfind : (run :: rest).find? (fun x => utils.Contains
      (scanResources k s.HeadCommitSha (resource :: resources) []) x.RunId) with
  | none => simp [hfind]
  | some x => simp [hfind]

end runs

namespace runs

theorem find_run_of_mem (a : Int) (rs : List models.Run) (h : a ∈ runIdsOf rs) :
    ∃ x, rs.find? (fun x => utils.Contains [a] x.RunId) = some x ∧ x.RunId = a := by
  cases hf : rs.find? (fun x => utils.Contains [a] x.RunId) with
  | none =>
    rw [List.find?_eq_none] at hf
    simp only [runIdsOf, List.mem_map] at h
    obtain ⟨y, hy, hya⟩ := h
    exact absurd (by simp [utils.Contains, hya]) (hf y hy)
  | some x =>
    have hx := List.find?_some hf
    exact ⟨x, rfl, by simpa [utils.Contains] using hx⟩

theorem find?_of_filter_eq_cons {α : Type} (p : α → Bool) (l : List α) (a : α) (t : List α)
    (h : l.filter p = a :: t) : l.find? p = some a := by
  induction l with
  | nil => simp at h
  | cons b l ih =>
    by_cases hb : p b = true
    · simp only [List.filter_cons, hb, if_true, List.cons.injEq] at h
      rw [← h.1, List.find?_cons, hb]
    · simp only [List.filter_cons, hb, if_false] at h
      rw [List.find?_cons]
      simp only [hb]
      exact ih h

theorem scanResources_of_single (k : Constants) (head : String)
    (resources : List models.RunResourceVersion) (r : models.RunResourceVersion)
    (hone : resources.filter (isActiveFor k head) = [r]) :
    scanResources k head resources [] = [r.RunId] := by
  have hfind : resources.find? (isActiveFor k head) = some r :=
    find?_of_filter_eq_cons _ resources r [] hone
  rw [scanResources_eq, hfind]
  rfl

end runs

namespace runs

/-- Reuse of the single matching run: the outcome of `Tick` and the absence of a trigger
call in `OnComplete`. -/
theorem reuse_of_single_match (k : Constants) (ctx : Context)
    (s0 s : PipedCommandState) (log : List Event)
    (pipeline : models.Pipeline) (pipelines : List models.Pipeline)
    (run : models.Run) (rest : List models.Run)
    (resources : List models.RunResourceVersion) (r : models.RunResourceVersion)
    (status : RunStatus)
    (hfresh : s0.ShouldTriggerRun = false)
    (hinit : s = (Init ctx s0 log).state)
    (hp : ctx.HttpClient.GetPipelines log (pipelinesOptions ctx s) =
      .ok { Pipelines := pipeline :: pipelines })
    (hr : ctx.HttpClient.GetRuns (logAfterPipelines ctx s log)
      (processingRunsOptions k pipeline.PipelineId) = .ok { Runs := run :: rest })
    (hv : ctx.HttpClient.GetRunResourceVersions (logAfterRuns k ctx s log pipeline.PipelineId)
      (runResourcesOptions { s with PipelineId := pipeline.PipelineId }
        (runIdStrings (run :: rest))) = .ok { Resources := resources })
    (hone : resources.filter (isActiveFor k s.HeadCommitSha) = [r])
    (hmem : r.RunId ∈ runIdsOf (run :: rest))
    (hne : r.RunId ≠ -1) :
    (Tick k ctx s log).result = .ok { Message := "Found an active run id", Done := true } ∧
    (Tick k ctx s log).state.RunId = r.RunId ∧
    (Tick k ctx s log).state.ShouldTriggerRun = false ∧
    triggerCalls (OnComplete k ctx (Tick k ctx s log).state status (Tick k ctx s log).log).log
      = triggerCalls log := by
  have hscan := scanResources_of_single k s.HeadCommitSha resources r hone
  obtain ⟨x, hx, hxa⟩ := find_run_of_mem r.RunId (run :: rest) hmem
  cases resources with
  | nil => simp at hone
  | cons resource resources =>
    have hs : s.ShouldTriggerRun = false := by rw [hinit]; exact hfresh
    rw [Tick_of_answers k ctx s log pipeline pipelines run rest resource resources hp hr hv,
      hscan, hx]
    simp only [hxa, List.length_singleton, ne_eq, one_ne_zero, not_false_eq_true, hne,
      and_self, if_true, true_and]
    refine ⟨hs, ?_⟩
    unfold OnComplete
    simp only [hs, Bool.false_eq_true, if_false]
    rw [resolveRunNumber_triggerCalls, logAfterResources_triggerCalls]

end runs

namespace runs

theorem logAfterLatestRun_triggerCalls (k : Constants) (st : PipedCommandState)
    (log : List Event) (stepId : Int) :
    triggerCalls (logAfterLatestRun k st log stepId) = triggerCalls log + 1 := by
  simp [logAfterLatestRun, logAfterSleep, logAfterTrigger, logAfterSteps, triggerCalls,
    List.filter_append, Event.isTrigger]

/-- Without the trigger flag `OnComplete` is its second block alone. -/
theorem OnComplete_of_not_trigger (k : Constants) (ctx : Context) (st : PipedCommandState)
    (status : RunStatus) (log : List Event) (hs : st.ShouldTriggerRun = false) :
    OnComplete k ctx st status log = resolveRunNumber ctx st log := by
  simp [OnComplete, hs]

/-- With the trigger flag, once the step is found and the trigger accepted, the outcome of
`OnComplete` is decided by the answer to the query for the most recently created run. -/
theorem OnComplete_of_trigger (k : Constants) (ctx : Context) (st : PipedCommandState)
    (status : RunStatus) (log : List Event)
    (step : models.PipelineStep) (steps : List models.PipelineStep) (rs : List models.Run)
    (hs : st.ShouldTriggerRun = true)
    (hsteps : ctx.HttpClient.GetPipelinesSteps log (stepsOptions k st) =
      .ok { Steps := step :: steps })
    (htrig : ctx.HttpClient.TriggerPipelinesStep (logAfterSteps k st log) step.Id = .ok ())
    (hruns : ctx.HttpClient.GetRuns (logAfterSleep k st log step.Id) (latestRunOptions st) =
      .ok { Runs := rs }) :
    OnComplete k ctx st status log =
      match rs with
      | [] => { result := .error "failed to get the triggered run", state := st,
                log := logAfterLatestRun k st log step.Id }
      | run :: _ =>
        resolveRunNumber ctx { st with RunId := run.RunId, RunNumber := run.RunNumber }
          (logAfterLatestRun k st log step.Id) := by
  unfold OnComplete
  simp only [hs, if_true, hsteps, htrig, hruns]
  cases rs <;> rfl

/-- A successful `OnComplete` on a state with the trigger flag has found a step, triggered
it and read the most recently created run. -/
theorem OnComplete_trigger_ok_inv (k : Constants) (ctx : Context) (st : PipedCommandState)
    (status : RunStatus) (log : List Event) (msg : String)
    (hs : st.ShouldTriggerRun = true)
    (h : (OnComplete k ctx st status log).result = .ok msg) :
    ∃ stepId run rest,
      ctx.HttpClient.GetRuns (logAfterSleep k st log stepId) (latestRunOptions st) =
        .ok { Runs := run :: rest } ∧
      OnComplete k ctx st status log =
        resolveRunNumber ctx { st with RunId := run.RunId, RunNumber := run.RunNumber }
          (logAfterLatestRun k st log stepId) := by
  unfold OnComplete at h ⊢
  simp only [hs, if_true] at h ⊢
  cases hsteps : ctx.HttpClient.GetPipelinesSteps log (stepsOptions k st) with
  | error e => simp [hsteps] at h
  | ok pipeSteps =>
    obtain ⟨sl⟩ := pipeSteps
    cases sl with
    | nil => simp [hsteps] at h
    | cons step steps =>
      cases htrig : ctx.HttpClient.TriggerPipelinesStep (logAfterSteps k st log) step.Id with
      | error e => simp [hsteps, htrig] at h
      | ok u =>
        cases hruns : ctx.HttpClient.GetRuns (logAfterSleep k st log step.Id)
            (latestRunOptions st) with
        | error e => simp [hsteps, htrig, hruns] at h
        | ok runResp =>
          obtain ⟨rl⟩ := runResp
          cases rl with
          | nil => simp [hsteps, htrig, hruns] at h
          | cons run rest => exact ⟨step.Id, run, rest, hruns, by simp [htrig, hruns]⟩

/-- A successful second block leaves a run number that is either the one it found in the
state, different from `-1`, or the one of a run returned by the remote service. -/
theorem resolveRunNumber_ok_inv (ctx : Context) (st : PipedCommandState) (log : List Event)
    (msg : String) (h : (resolveRunNumber ctx st log).result = .ok msg) :
    (st.RunNumber ≠ -1 ∧ (resolveRunNumber ctx st log).state = st) ∨
    ∃ run rest, ctx.HttpClient.GetRuns log (runByIdOptions st) = .ok { Runs := run :: rest } ∧
      (resolveRunNumber ctx st log).state = { st with RunNumber := run.RunNumber } := by
  unfold resolveRunNumber at h ⊢
  by_cases hn : st.RunNumber = -1
  · right
    simp only [hn, if_true] at h ⊢
    cases hruns : ctx.HttpClient.GetRuns log (runByIdOptions st) with
    | error e => simp [hruns] at h
    | ok runResp =>
      obtain ⟨rl⟩ := runResp
      cases rl with
      | nil => simp [hruns] at h
      | cons run rest => exact ⟨run, rest, rfl, rfl⟩
  · left
    simp [hn]

/-- What a successful `Tick` on a state with `RunId = -1` leaves behind. -/
theorem Tick_ok_inv (k : Constants) (ctx : Context) (s : PipedCommandState)
    (log : List Event) (status : RunStatus)
    (hid : s.RunId = -1)
    (h : (Tick k ctx s log).result = .ok status) :
    status.Done = true ∧
    triggerCalls (Tick k ctx s log).log = triggerCalls log ∧
    (Tick k ctx s log).state.RunNumber = s.RunNumber ∧
    ∃ p ps rs,
      ctx.HttpClient.GetPipelines log (pipelinesOptions ctx s) = .ok { Pipelines := p :: ps } ∧
      ctx.HttpClient.GetRuns (logAfterPipelines ctx s log) (processingRunsOptions k p.PipelineId)
        = .ok { Runs := rs } ∧
      (((Tick k ctx s log).state.ShouldTriggerRun = true ∧ (Tick k ctx s log).state.RunId = -1) ∨
       ((Tick k ctx s log).state.ShouldTriggerRun = s.ShouldTriggerRun ∧
        (Tick k ctx s log).state.RunId ≠ -1 ∧
        (Tick k ctx s log).state.RunId ∈ runIdsOf rs)) := by
  cases hp : ctx.HttpClient.GetPipelines log (pipelinesOptions ctx s) with
  | error e => simp [Tick, hp] at h
  | ok pipeResp =>
    obtain ⟨pl⟩ := pipeResp
    cases pl with
    | nil => simp [Tick, hp] at h
    | cons p ps =>
      cases hr : ctx.HttpClient.GetRuns (logAfterPipelines ctx s log)
          (processingRunsOptions k p.PipelineId) with
      | error e => simp [Tick, hp, hr] at h
      | ok runResp =>
        obtain ⟨rl⟩ := runResp
        cases rl with
        | nil =>
          have ht : Tick k ctx s log =
              { result := .ok { Done := true },
                state := { s with PipelineId := p.PipelineId, ShouldTriggerRun := true },
                log := logAfterRuns k ctx s log p.PipelineId } := by
            simp [Tick, hp, hr]
          rw [ht] at h ⊢
          simp only [Except.ok.injEq] at h
          subst h
          refine ⟨rfl, ?_, rfl, p, ps, [], rfl, hr, Or.inl ⟨rfl, hid⟩⟩
          simp [logAfterRuns, logAfterPipelines, triggerCalls, List.filter_append,
            Event.isTrigger]
        | cons run rest =>
          cases hv : ctx.HttpClient.GetRunResourceVersions
              (logAfterRuns k ctx s log p.PipelineId)
              (runResourcesOptions { s with PipelineId := p.PipelineId }
                (runIdStrings (run :: rest))) with
          | error e => simp [Tick, hp, hr, hv] at h
          | ok resResp =>
            obtain ⟨vl⟩ := resResp
            cases vl with
            | nil =>
              have ht : Tick k ctx s log =
                  { result := .ok { Done := true },
                    state := { s with PipelineId := p.PipelineId, ShouldTriggerRun := true },
                    log := logAfterResources k ctx s log p.PipelineId (run :: rest) } := by
                simp [Tick, hp, hr, hv]
              rw [ht] at h ⊢
              simp only [Except.ok.injEq] at h
              subst h
              exact ⟨rfl, logAfterResources_triggerCalls _ _ _ _ _ _, rfl, p, ps, run :: rest,
                rfl, hr, Or.inl ⟨rfl, hid⟩⟩
            | cons resource resources =>
              have ht := Tick_of_answers k ctx s log p ps run rest resource resources hp hr hv
              rw [ht] at h ⊢
              split at h
              · rename_i hc
                rw [if_pos hc]
                simp only [Except.ok.injEq] at h
                subst h
                refine ⟨rfl, logAfterResources_triggerCalls _ _ _ _ _ _, rfl, p, ps, run :: rest,
                  rfl, hr, Or.inr ⟨rfl, hc.2, ?_⟩⟩
                cases hf : (run :: rest).find? (fun x => utils.Contains
                    (scanResources k s.HeadCommitSha (resource :: resources) []) x.RunId) with
                | none =>
                  rw [hf] at hc
                  exact absurd hid hc.2
                | some x =>
                  simp only [runIdsOf, List.mem_map]
                  exact ⟨x, List.mem_of_find?_eq_some hf, rfl⟩
              · rename_i hc
                rw [if_neg hc]
                simp only [Except.ok.injEq] at h
                subst h
                refine ⟨rfl, logAfterResources_triggerCalls _ _ _ _ _ _, rfl, p, ps, run :: rest,
                  rfl, hr, Or.inl ⟨rfl, ?_⟩⟩
                cases hf : (run :: rest).find? (fun x => utils.Contains
                    (scanResources k s.HeadCommitSha (resource :: resources) []) x.RunId) with
                | none => exact hid
                | some x =>
                  rw [hf] at hc
                  by_contra hx
                  apply hc
                  refine ⟨?_, hx⟩
                  have hcont := List.find?_some hf
                  intro hlen
                  have hnil : scanResources k s.HeadCommitSha (resource :: resources) [] = [] :=
                    List.length_eq_zero.mp hlen
                  rw [hnil] at hcont
                  simp [utils.Contains] at hcont

end runs

namespace runs

theorem resolveRunNumber_of_resolved (ctx : Context) (st : PipedCommandState)
    (log : List Event) (h : st.RunNumber ≠ -1) :
    resolveRunNumber ctx st log = { result := .ok "", state := st, log := log } := by
  simp [resolveRunNumber, h]

end runs

namespace runner

/-- The loop stops at the first command that returns an error: it returns that error, and
the commands called are those up to and including it. -/
theorem runLoop_first_error (ctx : Context) (cs : List PipedCommand) (i : Nat)
    (state : PipedCommandState) (log : List Event) (ran : List Nat) (k : Nat) (e : String)
    (hsucc : ∀ j < k, succeedsAt ctx cs state log j = true)
    (herr : errorAt ctx cs state log k = some e) :
    (runLoop ctx cs i state log ran).err = some e ∧
    (runLoop ctx cs i state log ran).ran = ran ++ List.range' i (k + 1) := by
  induction cs generalizing i state log ran k with
  | nil => simp [errorAt, outcomeAt] at herr
  | cons c rest ih =>
    cases k with
    | zero =>
      simp only [errorAt, outcomeAt] at herr
      unfold runLoop
      cases hres : (c.Run ctx state log).result with
      | error err =>
        rw [hres] at herr
        simp only [Option.some.injEq] at herr
        subst herr
        simp [List.range']
      | ok u =>
        rw [hres] at herr
        simp at herr
    | succ k =>
      have h0 := hsucc 0 (Nat.succ_pos k)
      simp only [succeedsAt, outcomeAt] at h0
      unfold runLoop
      cases hres : (c.Run ctx state log).result with
      | error err =>
        rw [hres] at h0
        simp at h0
      | ok u =>
        have hshift : ∀ j < k, succeedsAt ctx rest (c.Run ctx state log).state
            (c.Run ctx state log).log j = true := by
          intro j hj
          have := hsucc (j + 1) (Nat.succ_lt_succ hj)
          simpa only [succeedsAt, outcomeAt] using this
        have herr' : errorAt ctx rest (c.Run ctx state log).state
            (c.Run ctx state log).log k = some e := by
          simpa only [errorAt, outcomeAt] using herr
        obtain ⟨h1, h2⟩ := ih (i + 1) _ _ (ran ++ [i]) k hshift herr'
        simp only [h1, h2, true_and]
        simp [List.range'_succ]

/-- The loop returns no error exactly when every command returns no error; all commands
have then been called, in order. -/
theorem runLoop_success_iff (ctx : Context) (cs : List PipedCommand) (i : Nat)
    (state : PipedCommandState) (log : List Event) (ran : List Nat) :
    (runLoop ctx cs i state log ran).err = none ↔
      ∀ j < cs.length, succeedsAt ctx cs state log j = true := by
  induction cs generalizing i state log ran with
  | nil => simp [runLoop]
  | cons c rest ih =>
    unfold runLoop
    cases hres : (c.Run ctx state log).result with
    | error err =>
      constructor
      · intro h
        simp at h
      · intro h
        have h0 := h 0 (Nat.succ_pos _)
        simp [succeedsAt, outcomeAt, hres] at h0
    | ok u =>
      simp only [ih, List.length_cons]
      constructor
      · intro h j hj
        cases j with
        | zero => simp [succeedsAt, outcomeAt, hres]
        | succ j =>
          have := h j (Nat.lt_of_succ_lt_succ hj)
          simpa only [succeedsAt, outcomeAt] using this
      · intro h j hj
        have := h (j + 1) (Nat.succ_lt_succ hj)
        simpa only [succeedsAt, outcomeAt] using this

end runner

namespace runs

theorem resolveRunNumber_extends_log (ctx : Context) (st : PipedCommandState)
    (log : List Event) : log <+: (resolveRunNumber ctx st log).log := by
  unfold resolveRunNumber
  split
  · split
    · exact List.prefix_append _ _
    · split <;> exact List.prefix_append _ _
  · exact List.prefix_refl _

/-- `Tick` never clears the trigger flag. -/
theorem Tick_keeps_trigger_flag (k : Constants) (ctx : Context) (s : PipedCommandState)
    (log : List Event) (hs : s.ShouldTriggerRun = true) :
    (Tick k ctx s log).state.ShouldTriggerRun = true := by
  cases hp : ctx.HttpClient.GetPipelines log (pipelinesOptions ctx s) with
  | error e =>
    simp only [Tick, hp]
    exact hs
  | ok pipeResp =>
    obtain ⟨pl⟩ := pipeResp
    cases pl with
    | nil =>
      simp only [Tick, hp]
      exact hs
    | cons p ps =>
      cases hr : ctx.HttpClient.GetRuns (logAfterPipelines ctx s log)
          (processingRunsOptions k p.PipelineId) with
      | error e =>
        simp only [Tick, hp, hr]
        exact hs
      | ok runResp =>
        obtain ⟨rl⟩ := runResp
        cases rl with
        | nil => simp only [Tick, hp, hr]
        | cons run rest =>
          cases hv : ctx.HttpClient.GetRunResourceVersions
              (logAfterRuns k ctx s log p.PipelineId)
              (runResourcesOptions { s with PipelineId := p.PipelineId }
                (runIdStrings (run :: rest))) with
          | error e =>
            simp only [Tick, hp, hr, hv]
            exact hs
          | ok resResp =>
            obtain ⟨vl⟩ := resResp
            cases vl with
            | nil => simp only [Tick, hp, hr, hv]
            | cons resource resources =>
              rw [Tick_of_answers k ctx s log p ps run rest resource resources hp hr hv]
              split
              · exact hs
              · rfl

/-- With the trigger flag set, the first request of `OnComplete` is the step lookup. -/
theorem OnComplete_trigger_starts_with_lookup (k : Constants) (ctx : Context)
    (st : PipedCommandState) (status : RunStatus) (log : List Event)
    (hs : st.ShouldTriggerRun = true) :
    logAfterSteps k st log <+: (OnComplete k ctx st status log).log := by
  have hT : ∀ id, logAfterSteps k st log <+: logAfterTrigger k st log id :=
    fun id => List.prefix_append _ _
  have hL : ∀ id, logAfterSteps k st log <+: logAfterLatestRun k st log id := by
    intro id
    unfold logAfterLatestRun logAfterSleep logAfterTrigger
    rw [List.append_assoc, List.append_assoc]
    exact List.prefix_append _ _
  unfold OnComplete
  simp only [hs, if_true]
  split
  · exact List.prefix_refl _
  · split
    · exact List.prefix_refl _
    · split
      · exact hT _
      · split
        · exact hL _
        · split
          · exact hL _
          · exact (hL _).trans (resolveRunNumber_extends_log _ _ _)

end runs

/-! ## Lemmas for the run-id strings -/

namespace strconv

theorem digitChar_ne_bracket (d : Nat) : digitChar d ≠ '[' ∧ digitChar d ≠ ']' := by
  unfold digitChar
  split <;> decide

theorem natDigits_chars (fuel n : Nat) (c : Char) (h : c ∈ natDigits fuel n) :
    ∃ d, c = digitChar d := by
  induction fuel generalizing n with
  | zero => simp [natDigits] at h
  | succ fuel ih =>
    unfold natDigits at h
    by_cases hn : n < 10
    · simp only [hn, if_true, List.mem_singleton] at h
      exact ⟨n, h⟩
    · simp only [hn, if_false, List.mem_append, List.mem_singleton] at h
      rcases h with h | h
      · exact ih _ h
      · exact ⟨n % 10, h⟩

/-- The decimal rendering of an integer contains no square bracket. -/
theorem Itoa_no_bracket (i : Int) (c : Char) (h : c ∈ (Itoa i).data) : c ≠ '[' ∧ c ≠ ']' := by
  cases i with
  | ofNat n =>
    simp only [Itoa, formatNat] at h
    obtain ⟨d, hd⟩ := natDigits_chars _ _ c h
    rw [hd]
    exact digitChar_ne_bracket d
  | negSucc n =>
    simp only [Itoa, formatNat, List.mem_cons] at h
    rcases h with h | h
    · rw [h]
      decide
    · obtain ⟨d, hd⟩ := natDigits_chars _ _ c h
      rw [hd]
      exact digitChar_ne_bracket d

end strconv

namespace strings

theorem intercalate_go_chars (sep : String) (elems : List String) (acc : String) (c : Char)
    (h : c ∈ (String.intercalate.go acc sep elems).data) :
    c ∈ acc.data ∨ c ∈ sep.data ∨ ∃ e ∈ elems, c ∈ e.data := by
  induction elems generalizing acc with
  | nil => exact Or.inl h
  | cons a rest ih =>
    simp only [String.intercalate.go] at h
    rcases ih _ h with h1 | h1 | ⟨e, he, hc⟩
    · simp only [String.data_append, List.mem_append] at h1
      rcases h1 with (h1 | h1) | h1
      · exact Or.inl h1
      · exact Or.inr (Or.inl h1)
      · exact Or.inr (Or.inr ⟨a, List.mem_cons_self _ _, h1⟩)
    · exact Or.inr (Or.inl h1)
    · exact Or.inr (Or.inr ⟨e, List.mem_cons_of_mem _ he, hc⟩)

/-- Every character of a join comes from the separator or from one of the elements. -/
theorem Join_chars (elems : List String) (sep : String) (c : Char)
    (h : c ∈ (Join elems sep).data) : c ∈ sep.data ∨ ∃ e ∈ elems, c ∈ e.data := by
  cases elems with
  | nil => simp [Join, String.intercalate] at h
  | cons a rest =>
    simp only [Join, String.intercalate] at h
    rcases intercalate_go_chars sep rest a c h with h1 | h1 | ⟨e, he, hc⟩
    · exact Or.inr ⟨a, List.mem_cons_self _ _, h1⟩
    · exact Or.inl h1
    · exact Or.inr ⟨e, List.mem_cons_of_mem _ he, hc⟩

theorem dropWhile_of_none {α : Type} (p : α → Bool) (l : List α)
    (h : ∀ a ∈ l, p a = false) : l.dropWhile p = l := by
  cases l with
  | nil => rfl
  | cons a l => simp [List.dropWhile_cons, h a (List.mem_cons_self _ _)]

/-- Trimming leaves a string unchanged when none of its characters is in the cutset. -/
theorem Trim_of_no_cut (s cutset : String) (h : ∀ c ∈ s.data, c ∉ cutset.data) :
    Trim s cutset = s := by
  have hp : ∀ c ∈ s.data, decide (c ∈ cutset.data) = false := by
    intro c hc
    simpa using h c hc
  have hr : ∀ c ∈ s.data.reverse, decide (c ∈ cutset.data) = false := by
    intro c hc
    exact hp c (List.mem_reverse.mp hc)
  unfold Trim
  rw [dropWhile_of_none _ _ hp, dropWhile_of_none _ _ hr, List.reverse_reverse]

end strings

namespace runs

/-- The comma-separated run ids contain no square bracket. -/
theorem joined_run_ids_no_bracket (rs : List models.Run) (c : Char)
    (h : c ∈ (strings.Join (runIdStrings rs) ",").data) : c ≠ '[' ∧ c ≠ ']' := by
  rcases strings.Join_chars _ _ c h with h1 | ⟨e, he, hc⟩
  · have hcomma : c = ',' := by simpa using h1
    rw [hcomma]
    decide
  · simp only [runIdStrings, List.mem_map] at he
    obtain ⟨run, _, hrun⟩ := he
    rw [← hrun] at hc
    exact strconv.Itoa_no_bracket _ c hc

end runs

namespace runs

/-- A `Tick` that returns without error reports `Done`. -/
theorem Tick_done (k : Constants) (ctx : Context) (s : PipedCommandState)
    (log : List Event) (status : RunStatus)
    (h : (Tick k ctx s log).result = .ok status) : status.Done = true := by
  cases hp : ctx.HttpClient.GetPipelines log (pipelinesOptions ctx s) with
  | error e => simp [Tick, hp] at h
  | ok pipeResp =>
    obtain ⟨pl⟩ := pipeResp
    cases pl with
    | nil => simp [Tick, hp] at h
    | cons p ps =>
      cases hr : ctx.HttpClient.GetRuns (logAfterPipelines ctx s log)
          (processingRunsOptions k p.PipelineId) with
      | error e => simp [Tick, hp, hr] at h
      | ok runResp =>
        obtain ⟨rl⟩ := runResp
        cases rl with
        | nil =>
          simp only [Tick, hp, hr, Except.ok.injEq] at h
          rw [← h]
        | cons run rest =>
          cases hv : ctx.HttpClient.GetRunResourceVersions
              (logAfterRuns k ctx s log p.PipelineId)
              (runResourcesOptions { s with PipelineId := p.PipelineId }
                (runIdStrings (run :: rest))) with
          | error e => simp [Tick, hp, hr, hv] at h
          | ok resResp =>
            obtain ⟨vl⟩ := resResp
            cases vl with
            | nil =>
              simp only [Tick, hp, hr, hv, Except.ok.injEq] at h
              rw [← h]
            | cons resource resources =>
              rw [Tick_of_answers k ctx s log p ps run rest resource resources hp hr hv] at h
              split at h <;>
                (simp only [Except.ok.injEq] at h
                 rw [← h])

end runs

namespace runner

/-- Around run discovery the retry loop calls `Tick` at most once and never sleeps. -/
theorem retryTick_discovery (k : Constants) (ctx : Context) (label : String)
    (config : backoffConfig) (n : Nat) (s : PipedCommandState) (log : List Event) :
    (retryTick (New003GetRun k) ctx label config n s log 0).attempts ≤ 1 ∧
    (retryTick (New003GetRun k) ctx label config n s log 0).log
      = if n = 0 then log else (runs.Tick k ctx s log).log := by
  cases n with
  | zero => simp [retryTick]
  | succ n =>
    unfold retryTick
    simp only [New003GetRun]
    cases ht : (runs.Tick k ctx s log).result with
    | error e => simp
    | ok status =>
      have hd := runs.Tick_done k ctx s log status ht
      simp [hd]

end runner

/-! ## The claims -/

open runs

/-- C1 (as amended): on a state prepared by `Init` whose trigger flag is unset, when the
run query returns the runs `run :: rest`, exactly one returned resource version `r` is of
git-repository type with the head commit, `r.RunId` is among the queried runs and is not
the sentinel `-1`, then `Tick` reports "Found an active run id" with `Done`, sets `RunId`
to `r.RunId`, leaves `ShouldTriggerRun = false`, and `OnComplete` adds no trigger call. -/
theorem C1_tick_reuses_single_match (k : Constants) (ctx : Context)
    (s0 s : PipedCommandState) (log : List Event)
    (pipeline : models.Pipeline) (pipelines : List models.Pipeline)
    (run : models.Run) (rest : List models.Run)
    (resources : List models.RunResourceVersion) (r : models.RunResourceVersion)
    (status : RunStatus)
    (hfresh : s0.ShouldTriggerRun = false)
    (hinit : s = (Init ctx s0 log).state)
    (hp : ctx.HttpClient.GetPipelines log (pipelinesOptions ctx s) =
      .ok { Pipelines := pipeline :: pipelines })
    (hr : ctx.HttpClient.GetRuns (logAfterPipelines ctx s log)
      (processingRunsOptions k pipeline.PipelineId) = .ok { Runs := run :: rest })
    (hv : ctx.HttpClient.GetRunResourceVersions (logAfterRuns k ctx s log pipeline.PipelineId)
      (runResourcesOptions { s with PipelineId := pipeline.PipelineId }
        (runIdStrings (run :: rest))) = .ok { Resources := resources })
    (hone : resources.filter (isActiveFor k s.HeadCommitSha) = [r])
    (hmem : r.RunId ∈ runIdsOf (run :: rest))
    (hne : r.RunId ≠ -1) :
    (Tick k ctx s log).result = .ok { Message := "Found an active run id", Done := true } ∧
    (Tick k ctx s log).state.RunId = r.RunId ∧
    (Tick k ctx s log).state.ShouldTriggerRun = false ∧
    triggerCalls (OnComplete k ctx (Tick k ctx s log).state status (Tick k ctx s log).log).log
      = triggerCalls log :=
  reuse_of_single_match k ctx s0 s log pipeline pipelines run rest resources r status
    hfresh hinit hp hr hv hone hmem hne

/-- C1, witness: runs `[100, 101]`, resource version of run 101 with commit `abc`, head
commit `abc`: `RunId = 101`, no trigger. -/
theorem C1_tick_reuses_single_match_witness :
    (Tick sampleConstants (sampleContext reuseClient false) preparedState []).result
      = .ok { Message := "Found an active run id", Done := true } ∧
    (Tick sampleConstants (sampleContext reuseClient false) preparedState []).state.RunId
      = (gitResource 101 "abc").RunId ∧
    (Tick sampleConstants (sampleContext reuseClient false) preparedState []).state.ShouldTriggerRun
      = false ∧
    triggerCalls (OnComplete sampleConstants (sampleContext reuseClient false)
      (Tick sampleConstants (sampleContext reuseClient false) preparedState []).state {}
      (Tick sampleConstants (sampleContext reuseClient false) preparedState []).log).log
      = triggerCalls [] :=
  C1_tick_reuses_single_match sampleConstants (sampleContext reuseClient false)
    sampleState preparedState [] { PipelineId := 7 } []
    { RunId := 100, RunNumber := 9 } [{ RunId := 101, RunNumber := 8 }]
    [gitResource 101 "abc"] (gitResource 101 "abc") {}
    (by decide) (by decide) rfl rfl rfl (by decide) (by decide) (by decide)

/-- C1, counterexample: the single matching resource version belongs to the queried run
whose id is `-1`.  `Tick` stores `-1`, takes it for "no run", sets `ShouldTriggerRun`, and
`OnComplete` makes a trigger call. -/
theorem C1_counterexample_sentinel_run_id :
    sampleState.ShouldTriggerRun = false ∧
    preparedState = (Init (sampleContext sentinelClient false) sampleState []).state ∧
    [gitResource (-1) "abc"].filter (isActiveFor sampleConstants preparedState.HeadCommitSha)
      = [gitResource (-1) "abc"] ∧
    (gitResource (-1) "abc").RunId ∈ runIdsOf [{ RunId := -1, RunNumber := 9 }] ∧
    (Tick sampleConstants (sampleContext sentinelClient false) preparedState []).state.RunId
      = (gitResource (-1) "abc").RunId ∧
    (Tick sampleConstants (sampleContext sentinelClient false) preparedState []).state.ShouldTriggerRun
      = true ∧
    triggerCalls (OnComplete sampleConstants (sampleContext sentinelClient false)
      (Tick sampleConstants (sampleContext sentinelClient false) preparedState []).state {}
      (Tick sampleConstants (sampleContext sentinelClient false) preparedState []).log).log
      = 1 := by
  decide

/-- C2, evaluation at the failing input: the run list is `[101, 100]` by run number
descending, both runs have a git-repository resource version with the head commit, and
the one of run 100 is received first.  `Tick` keeps the single candidate 100 and selects
run 100, although run 101 matches and comes first in the run list. -/
theorem C2_tick_selects_first_received_match :
    [gitResource 100 "abc", gitResource 101 "abc"].filter
        (isActiveFor sampleConstants preparedState.HeadCommitSha)
      = [gitResource 100 "abc", gitResource 101 "abc"] ∧
    (Tick sampleConstants (sampleContext anomalyClient false) preparedState []).result
      = .ok { Message := "Found an active run id", Done := true } ∧
    (Tick sampleConstants (sampleContext anomalyClient false) preparedState []).state.RunId
      = 100 := by
  decide

/-- C3: on a state prepared by `Init`, when the pipelines query returns a pipeline and
either the processing-run query returns no run, or it returns runs and the
resource-version query returns nothing, `Tick` returns without error a status with
`Done = true`, sets `ShouldTriggerRun = true` and leaves `RunId` at `-1`. -/
theorem C3_tick_triggers_without_active_run (k : Constants) (ctx : Context)
    (s0 s : PipedCommandState) (log : List Event)
    (pipeline : models.Pipeline) (pipelines : List models.Pipeline) (rs : List models.Run)
    (hinit : s = (Init ctx s0 log).state)
    (hp : ctx.HttpClient.GetPipelines log (pipelinesOptions ctx s) =
      .ok { Pipelines := pipeline :: pipelines })
    (hr : ctx.HttpClient.GetRuns (logAfterPipelines ctx s log)
      (processingRunsOptions k pipeline.PipelineId) = .ok { Runs := rs })
    (hnone : rs = [] ∨
      ctx.HttpClient.GetRunResourceVersions (logAfterRuns k ctx s log pipeline.PipelineId)
        (runResourcesOptions { s with PipelineId := pipeline.PipelineId } (runIdStrings rs))
        = .ok { Resources := [] }) :
    (Tick k ctx s log).result = .ok { Message := "", Done := true } ∧
    (Tick k ctx s log).state.ShouldTriggerRun = true ∧
    (Tick k ctx s log).state.RunId = -1 := by
  have hid : s.RunId = -1 := by rw [hinit]; rfl
  unfold Tick
  cases rs with
  | nil => simp [hp, hr, hid]
  | cons run rest =>
    rcases hnone with h | h
    · simp at h
    · simp only [hp, hr, h]
      exact ⟨trivial, trivial, hid⟩

/-- C3, witness: no processing run at all. -/
theorem C3_tick_triggers_without_active_run_witness :
    (Tick sampleConstants (sampleContext triggerClient false) preparedState []).result
      = .ok { Message := "", Done := true } ∧
    (Tick sampleConstants (sampleContext triggerClient false) preparedState []).state.ShouldTriggerRun
      = true ∧
    (Tick sampleConstants (sampleContext triggerClient false) preparedState []).state.RunId
      = -1 :=
  C3_tick_triggers_without_active_run sampleConstants (sampleContext triggerClient false)
    sampleState preparedState [] { PipelineId := 7 } [] [] (by decide) rfl rfl (Or.inl rfl)

/-- C4: when the pipelines query returns an empty list, `Tick` fails with the error
"failed to get the pipeline", the state is the one it was given, and the pipelines query
is the only request added to the log. -/
theorem C4_tick_fails_without_pipeline (k : Constants) (ctx : Context)
    (s : PipedCommandState) (log : List Event)
    (hp : ctx.HttpClient.GetPipelines log (pipelinesOptions ctx s) = .ok { Pipelines := [] }) :
    (Tick k ctx s log).result = .error "failed to get the pipeline" ∧
    (Tick k ctx s log).state = s ∧
    (Tick k ctx s log).log = log ++ [Event.GetPipelines (pipelinesOptions ctx s)] := by
  unfold Tick
  simp [hp, logAfterPipelines]

/-- C4, witness: a remote service without any pipeline, which would answer the later
queries with a matching run. -/
theorem C4_tick_fails_without_pipeline_witness :
    (Tick sampleConstants (sampleContext noPipelineClient false) preparedState []).result
      = .error "failed to get the pipeline" ∧
    (Tick sampleConstants (sampleContext noPipelineClient false) preparedState []).state
      = preparedState ∧
    (Tick sampleConstants (sampleContext noPipelineClient false) preparedState []).log
      = [] ++ [Event.GetPipelines
          (pipelinesOptions (sampleContext noPipelineClient false) preparedState)] :=
  C4_tick_fails_without_pipeline sampleConstants (sampleContext noPipelineClient false)
    preparedState [] rfl

/-- C5 (as amended): on a state with `ShouldTriggerRun = true`, when the step lookup
returns at least one step and the trigger call succeeds: if the query for the most
recently created run returns nothing, `OnComplete` fails with "failed to get the
triggered run" and leaves the state as it was; if it returns a list whose first run has a
run number different from `-1`, `OnComplete` succeeds and sets `RunId` and `RunNumber` to
those of that run. -/
theorem C5_oncomplete_records_triggered_run (k : Constants) (ctx : Context)
    (st : PipedCommandState) (status : RunStatus) (log : List Event)
    (step : models.PipelineStep) (steps : List models.PipelineStep) (rs : List models.Run)
    (hs : st.ShouldTriggerRun = true)
    (hsteps : ctx.HttpClient.GetPipelinesSteps log (stepsOptions k st) =
      .ok { Steps := step :: steps })
    (htrig : ctx.HttpClient.TriggerPipelinesStep (logAfterSteps k st log) step.Id = .ok ())
    (hruns : ctx.HttpClient.GetRuns (logAfterSleep k st log step.Id) (latestRunOptions st) =
      .ok { Runs := rs }) :
    (rs = [] →
      (OnComplete k ctx st status log).result = .error "failed to get the triggered run" ∧
      (OnComplete k ctx st status log).state = st) ∧
    (∀ run rest, rs = run :: rest → run.RunNumber ≠ -1 →
      (OnComplete k ctx st status log).result = .ok "" ∧
      (OnComplete k ctx st status log).state.RunId = run.RunId ∧
      (OnComplete k ctx st status log).state.RunNumber = run.RunNumber) := by
  rw [OnComplete_of_trigger k ctx st status log step steps rs hs hsteps htrig hruns]
  constructor
  · intro hnil
    subst hnil
    exact ⟨rfl, rfl⟩
  · intro run rest hrs hnum
    subst hrs
    simp [resolveRunNumber, hnum]

/-- C5, witness: pipeline 7, the run created by the trigger is `501` with run number
`42`; the final state has `RunId = 501` and `RunNumber = 42`. -/
theorem C5_oncomplete_records_triggered_run_witness :
    (OnComplete sampleConstants (sampleContext triggerClient false) triggeringState {} []).result
      = .ok "" ∧
    (OnComplete sampleConstants (sampleContext triggerClient false) triggeringState {} []).state.RunId
      = 501 ∧
    (OnComplete sampleConstants (sampleContext triggerClient false) triggeringState {}
      []).state.RunNumber = 42 :=
  (C5_oncomplete_records_triggered_run sampleConstants (sampleContext triggerClient false)
    triggeringState {} [] { Id := 1 } [] [{ RunId := 501, RunNumber := 42 }]
    rfl rfl rfl rfl).2 { RunId := 501, RunNumber := 42 } [] rfl (by decide)

/-- C5, counterexample: the step is found, the trigger succeeds and the query for the most
recently created run returns the run `501`, whose run number is `-1`.  `OnComplete` then
looks the run up by id, finds nothing and fails. -/
theorem C5_counterexample_unnumbered_run :
    triggeringState.ShouldTriggerRun = true ∧
    (sampleContext unnumberedClient false).HttpClient.GetPipelinesSteps []
      (stepsOptions sampleConstants triggeringState) = .ok { Steps := [{ Id := 1 }] } ∧
    (sampleContext unnumberedClient false).HttpClient.TriggerPipelinesStep
      (logAfterSteps sampleConstants triggeringState []) 1 = .ok () ∧
    (sampleContext unnumberedClient false).HttpClient.GetRuns
      (logAfterSleep sampleConstants triggeringState [] 1) (latestRunOptions triggeringState)
      = .ok { Runs := [{ RunId := 501, RunNumber := -1 }] } ∧
    (OnComplete sampleConstants (sampleContext unnumberedClient false) triggeringState {}
      []).result = .error "failed to get the triggered run" := by
  decide

/-- C7 (as amended): the `force` flag is not read by run discovery.  `Tick` and
`OnComplete` give the same outcome whatever the value of the flag; in particular, with the
flag set, on a state prepared by `Init` whose trigger flag is unset, when exactly one
returned resource version `r` is of git-repository type with the head commit, `r.RunId` is
among the queried runs and is not `-1`, `Tick` still reports "Found an active run id",
sets `RunId` to `r.RunId`, leaves `ShouldTriggerRun = false`, and `OnComplete` adds no
trigger call. -/
theorem C7_force_flag_not_consulted (k : Constants) (ctx : Context)
    (s0 s : PipedCommandState) (log : List Event)
    (pipeline : models.Pipeline) (pipelines : List models.Pipeline)
    (run : models.Run) (rest : List models.Run)
    (resources : List models.RunResourceVersion) (r : models.RunResourceVersion)
    (status : RunStatus)
    (hfresh : s0.ShouldTriggerRun = false)
    (hinit : s = (Init (withForceFlag true ctx) s0 log).state)
    (hp : (withForceFlag true ctx).HttpClient.GetPipelines log
      (pipelinesOptions (withForceFlag true ctx) s) = .ok { Pipelines := pipeline :: pipelines })
    (hr : (withForceFlag true ctx).HttpClient.GetRuns
      (logAfterPipelines (withForceFlag true ctx) s log)
      (processingRunsOptions k pipeline.PipelineId) = .ok { Runs := run :: rest })
    (hv : (withForceFlag true ctx).HttpClient.GetRunResourceVersions
      (logAfterRuns k (withForceFlag true ctx) s log pipeline.PipelineId)
      (runResourcesOptions { s with PipelineId := pipeline.PipelineId }
        (runIdStrings (run :: rest))) = .ok { Resources := resources })
    (hone : resources.filter (isActiveFor k s.HeadCommitSha) = [r])
    (hmem : r.RunId ∈ runIdsOf (run :: rest))
    (hne : r.RunId ≠ -1) :
    (withForceFlag true ctx).ForceFlag = true ∧
    (Tick k (withForceFlag true ctx) s log).result
      = .ok { Message := "Found an active run id", Done := true } ∧
    (Tick k (withForceFlag true ctx) s log).state.RunId = r.RunId ∧
    (Tick k (withForceFlag true ctx) s log).state.ShouldTriggerRun = false ∧
    triggerCalls (OnComplete k (withForceFlag true ctx)
      (Tick k (withForceFlag true ctx) s log).state status
      (Tick k (withForceFlag true ctx) s log).log).log = triggerCalls log ∧
    (∀ st l, Tick k (withForceFlag true ctx) st l = Tick k (withForceFlag false ctx) st l) ∧
    (∀ st l, OnComplete k (withForceFlag true ctx) st status l
      = OnComplete k (withForceFlag false ctx) st status l) := by
  obtain ⟨h1, h2, h3, h4⟩ :=
    reuse_of_single_match k (withForceFlag true ctx) s0 s log pipeline pipelines run rest
      resources r status hfresh hinit hp hr hv hone hmem hne
  exact ⟨rfl, h1, h2, h3, h4, fun _ _ => rfl, fun _ _ => rfl⟩

/-- C7, witness: the `force` flag is set, runs `[100, 101]`, resource version of run 101
with commit `abc`: `Tick` selects run 101 and no trigger call is made. -/
theorem C7_force_flag_not_consulted_witness :
    (Tick sampleConstants (withForceFlag true (sampleContext reuseClient false))
      preparedState []).result = .ok { Message := "Found an active run id", Done := true } ∧
    (Tick sampleConstants (withForceFlag true (sampleContext reuseClient false))
      preparedState []).state.RunId = (gitResource 101 "abc").RunId ∧
    (Tick sampleConstants (withForceFlag true (sampleContext reuseClient false))
      preparedState []).state.ShouldTriggerRun = false :=
  ⟨(C7_force_flag_not_consulted sampleConstants (sampleContext reuseClient false)
      sampleState preparedState [] { PipelineId := 7 } []
      { RunId := 100, RunNumber := 9 } [{ RunId := 101, RunNumber := 8 }]
      [gitResource 101 "abc"] (gitResource 101 "abc") {}
      (by decide) (by decide) rfl rfl rfl (by decide) (by decide) (by decide)).2.1,
    (C7_force_flag_not_consulted sampleConstants (sampleContext reuseClient false)
      sampleState preparedState [] { PipelineId := 7 } []
      { RunId := 100, RunNumber := 9 } [{ RunId := 101, RunNumber := 8 }]
      [gitResource 101 "abc"] (gitResource 101 "abc") {}
      (by decide) (by decide) rfl rfl rfl (by decide) (by decide) (by decide)).2.2.1,
    (C7_force_flag_not_consulted sampleConstants (sampleContext reuseClient false)
      sampleState preparedState [] { PipelineId := 7 } []
      { RunId := 100, RunNumber := 9 } [{ RunId := 101, RunNumber := 8 }]
      [gitResource 101 "abc"] (gitResource 101 "abc") {}
      (by decide) (by decide) rfl rfl rfl (by decide) (by decide) (by decide)).2.2.2.1⟩

/-- C7, counterexample: the `force` flag is set, in the context and in the state, the
pipeline is found and a processing run (101) has a git-repository resource version with
the head commit.  `Tick` does not set `ShouldTriggerRun`: it reuses run 101, and
`OnComplete` makes no trigger call. -/
theorem C7_counterexample_force_reuses_run :
    (sampleContext reuseClient true).ForceFlag = true ∧
    (Tick sampleConstants (sampleContext reuseClient true)
      { preparedState with ForceFlag := true } []).result
      = .ok { Message := "Found an active run id", Done := true } ∧
    (Tick sampleConstants (sampleContext reuseClient true)
      { preparedState with ForceFlag := true } []).state.RunId = 101 ∧
    (Tick sampleConstants (sampleContext reuseClient true)
      { preparedState with ForceFlag := true } []).state.ShouldTriggerRun = false ∧
    triggerCalls (OnComplete sampleConstants (sampleContext reuseClient true)
      (Tick sampleConstants (sampleContext reuseClient true)
        { preparedState with ForceFlag := true } []).state {}
      (Tick sampleConstants (sampleContext reuseClient true)
        { preparedState with ForceFlag := true } []).log).log = 0 := by
  decide

/-- C8: starting from a state whose trigger flag is unset, when `Init`, `Tick` and
`OnComplete` all succeed, exactly one of the following holds.  Reuse: after `Tick`,
`RunId` is different from `-1` and is the id of one of the processing runs returned by the
remote service, `ShouldTriggerRun = false`, and `OnComplete` adds no trigger call.
Trigger: after `Tick`, `ShouldTriggerRun = true` and `RunId = -1`, and `OnComplete` adds
exactly one trigger call. -/
theorem C8_exactly_one_of_reuse_and_trigger (k : Constants) (ctx : Context)
    (s0 s : PipedCommandState) (log : List Event) (status : RunStatus) (msg : String)
    (hfresh : s0.ShouldTriggerRun = false)
    (hinit : s = (Init ctx s0 log).state)
    (htick : (Tick k ctx s log).result = .ok status)
    (hdone : (OnComplete k ctx (Tick k ctx s log).state status (Tick k ctx s log).log).result
      = .ok msg) :
    (((Tick k ctx s log).state.RunId ≠ -1 ∧
        (Tick k ctx s log).state.ShouldTriggerRun = false ∧
        (∃ p ps rs,
          ctx.HttpClient.GetPipelines log (pipelinesOptions ctx s)
            = .ok { Pipelines := p :: ps } ∧
          ctx.HttpClient.GetRuns (logAfterPipelines ctx s log)
            (processingRunsOptions k p.PipelineId) = .ok { Runs := rs } ∧
          (Tick k ctx s log).state.RunId ∈ runIdsOf rs) ∧
        triggerCalls
          (OnComplete k ctx (Tick k ctx s log).state status (Tick k ctx s log).log).log
          = triggerCalls log) ∨
      ((Tick k ctx s log).state.ShouldTriggerRun = true ∧
        (Tick k ctx s log).state.RunId = -1 ∧
        triggerCalls
          (OnComplete k ctx (Tick k ctx s log).state status (Tick k ctx s log).log).log
          = triggerCalls log + 1)) ∧
    ¬ ((Tick k ctx s log).state.ShouldTriggerRun = false ∧
        triggerCalls
          (OnComplete k ctx (Tick k ctx s log).state status (Tick k ctx s log).log).log
          = triggerCalls log ∧
       (Tick k ctx s log).state.ShouldTriggerRun = true ∧
        triggerCalls
          (OnComplete k ctx (Tick k ctx s log).state status (Tick k ctx s log).log).log
          = triggerCalls log + 1) := by
  have hid : s.RunId = -1 := by rw [hinit]; rfl
  have hs : s.ShouldTriggerRun = false := by rw [hinit]; exact hfresh
  obtain ⟨_, hlog, _, p, ps, rs, hp, hr, hcase⟩ := Tick_ok_inv k ctx s log status hid htick
  refine ⟨?_, fun h => by omega⟩
  rcases hcase with ⟨htr, hrun⟩ | ⟨htr, hne, hmem⟩
  · right
    obtain ⟨stepId, run, rest, _, hc⟩ :=
      OnComplete_trigger_ok_inv k ctx _ status _ msg htr hdone
    refine ⟨htr, hrun, ?_⟩
    rw [hc, resolveRunNumber_triggerCalls, logAfterLatestRun_triggerCalls, hlog]
  · left
    rw [hs] at htr
    refine ⟨hne, htr, ⟨p, ps, rs, hp, hr, hmem⟩, ?_⟩
    rw [OnComplete_of_not_trigger k ctx _ status _ htr, resolveRunNumber_triggerCalls, hlog]

/-- C10: when every run returned by the remote service has a `RunId` and a `RunNumber`
different from `-1`, and `Init`, `Tick` and `OnComplete` all return without error, the
final state has `RunId ≠ -1` and `RunNumber ≠ -1`. -/
theorem C10_run_fields_resolved (k : Constants) (ctx : Context)
    (s0 s : PipedCommandState) (log : List Event) (status : RunStatus) (msg : String)
    (hruns : ∀ l o resp, ctx.HttpClient.GetRuns l o = .ok resp →
      ∀ run ∈ resp.Runs, run.RunId ≠ -1 ∧ run.RunNumber ≠ -1)
    (hinit : s = (Init ctx s0 log).state)
    (htick : (Tick k ctx s log).result = .ok status)
    (hdone : (OnComplete k ctx (Tick k ctx s log).state status (Tick k ctx s log).log).result
      = .ok msg) :
    (OnComplete k ctx (Tick k ctx s log).state status (Tick k ctx s log).log).state.RunId
      ≠ -1 ∧
    (OnComplete k ctx (Tick k ctx s log).state status (Tick k ctx s log).log).state.RunNumber
      ≠ -1 := by
  have hid : s.RunId = -1 := by rw [hinit]; rfl
  obtain ⟨_, _, _, p, ps, rs, _, _, hcase⟩ := Tick_ok_inv k ctx s log status hid htick
  by_cases htr : (Tick k ctx s log).state.ShouldTriggerRun = true
  · obtain ⟨stepId, run, rest, hlatest, hc⟩ :=
      OnComplete_trigger_ok_inv k ctx _ status _ msg htr hdone
    have hrun := hruns _ _ _ hlatest run (List.mem_cons_self _ _)
    rw [hc, resolveRunNumber_of_resolved ctx _ _ hrun.2]
    exact hrun
  · have hfalse : (Tick k ctx s log).state.ShouldTriggerRun = false := by
      simpa using htr
    rcases hcase with ⟨h1, _⟩ | ⟨_, hne, _⟩
    · exact absurd h1 htr
    · rw [OnComplete_of_not_trigger k ctx _ status _ hfalse] at hdone ⊢
      refine ⟨by rw [resolveRunNumber_RunId]; exact hne, ?_⟩
      rcases resolveRunNumber_ok_inv ctx _ _ msg hdone with ⟨hnum, hst⟩ | ⟨run, rest, hby, hst⟩
      · rw [hst]
        exact hnum
      · rw [hst]
        exact (hruns _ _ _ hby run (List.mem_cons_self _ _)).2

/-- C8, witness: in the reuse scenario run 101 is reused and no trigger call is made. -/
theorem C8_exactly_one_of_reuse_and_trigger_witness :
    ((reuseTick.state.RunId ≠ -1 ∧
        reuseTick.state.ShouldTriggerRun = false ∧
        (∃ p ps rs,
          (sampleContext reuseClient false).HttpClient.GetPipelines []
              (pipelinesOptions (sampleContext reuseClient false) preparedState)
            = .ok { Pipelines := p :: ps } ∧
          (sampleContext reuseClient false).HttpClient.GetRuns
              (logAfterPipelines (sampleContext reuseClient false) preparedState [])
              (processingRunsOptions sampleConstants p.PipelineId) = .ok { Runs := rs } ∧
          reuseTick.state.RunId ∈ runIdsOf rs) ∧
        triggerCalls reuseComplete.log = triggerCalls []) ∨
      (reuseTick.state.ShouldTriggerRun = true ∧
        reuseTick.state.RunId = -1 ∧
        triggerCalls reuseComplete.log = triggerCalls [] + 1)) ∧
    ¬ (reuseTick.state.ShouldTriggerRun = false ∧
        triggerCalls reuseComplete.log = triggerCalls [] ∧
        reuseTick.state.ShouldTriggerRun = true ∧
        triggerCalls reuseComplete.log = triggerCalls [] + 1) :=
  C8_exactly_one_of_reuse_and_trigger sampleConstants (sampleContext reuseClient false)
    sampleState preparedState [] { Message := "Found an active run id", Done := true } ""
    (by decide) (by decide) (by decide) (by decide)

/-- C10, witness: in the reuse scenario the final state has `RunId = 101` and
`RunNumber = 8`, both different from `-1`. -/
theorem C10_run_fields_resolved_witness :
    reuseComplete.state.RunId ≠ -1 ∧ reuseComplete.state.RunNumber ≠ -1 :=
  C10_run_fields_resolved sampleConstants (sampleContext reuseClient false)
    sampleState preparedState [] { Message := "Found an active run id", Done := true } ""
    (by
      intro l o resp h run hrun
      simp only [sampleContext, reuseClient, fixedClient] at h
      split_ifs at h <;> cases h <;> simp at hrun
      · rcases hrun with rfl | rfl <;> decide
      · subst hrun
        decide)
    (by decide) (by decide) (by decide)

/-- C9 (as amended): a first invocation (`Init`, `Tick` with outcome `t1`, `OnComplete`
with outcome `c1`) decides to trigger and succeeds, leaving the run id `R` in the state.
A second invocation starts on a new state for the same commit, after the events of the
first (outcomes `t2` and `c2`).  If the remote service then reports `R` among the
processing runs, exactly one returned resource version is of git-repository type with the
head commit, it belongs to `R`, and `R ≠ -1`, then the second `Tick` sets `RunId = R`, the
second `OnComplete` keeps it and adds no trigger call: one trigger call was made in
all. -/
theorem C9_second_invocation_reuses (k : Constants) (ctx : Context)
    (a0 a b0 b : PipedCommandState) (log0 : List Event)
    (t1 t2 : Outcome RunStatus) (c1 c2 : Outcome String)
    (status1 status2 : RunStatus) (msg1 : String)
    (pipeline : models.Pipeline) (pipelines : List models.Pipeline)
    (run : models.Run) (rest : List models.Run)
    (resources : List models.RunResourceVersion) (r : models.RunResourceVersion)
    (hinitA : a = (Init ctx a0 log0).state)
    (ht1 : t1 = Tick k ctx a log0)
    (hc1 : c1 = OnComplete k ctx t1.state status1 t1.log)
    (htick1 : t1.result = .ok status1)
    (htrig1 : t1.state.ShouldTriggerRun = true)
    (hdone1 : c1.result = .ok msg1)
    (hfreshB : b0.ShouldTriggerRun = false)
    (hcommit : b0.HeadCommitSha = a0.HeadCommitSha)
    (hinitB : b = (Init ctx b0 c1.log).state)
    (ht2 : t2 = Tick k ctx b c1.log)
    (hc2 : c2 = OnComplete k ctx t2.state status2 t2.log)
    (hp : ctx.HttpClient.GetPipelines c1.log (pipelinesOptions ctx b) =
      .ok { Pipelines := pipeline :: pipelines })
    (hr : ctx.HttpClient.GetRuns (logAfterPipelines ctx b c1.log)
      (processingRunsOptions k pipeline.PipelineId) = .ok { Runs := run :: rest })
    (hv : ctx.HttpClient.GetRunResourceVersions
      (logAfterRuns k ctx b c1.log pipeline.PipelineId)
      (runResourcesOptions { b with PipelineId := pipeline.PipelineId }
        (runIdStrings (run :: rest))) = .ok { Resources := resources })
    (hone : resources.filter (isActiveFor k a0.HeadCommitSha) = [r])
    (hrun : r.RunId = c1.state.RunId)
    (hmem : c1.state.RunId ∈ runIdsOf (run :: rest))
    (hne : c1.state.RunId ≠ -1) :
    t2.state.RunId = c1.state.RunId ∧
    c2.state.RunId = c1.state.RunId ∧
    triggerCalls c2.log = triggerCalls c1.log ∧
    triggerCalls c2.log = triggerCalls log0 + 1 := by
  have hsha : b.HeadCommitSha = a0.HeadCommitSha := by rw [hinitB]; exact hcommit
  obtain ⟨_, hid, hflag, hcalls⟩ :=
    reuse_of_single_match k ctx b0 b c1.log pipeline pipelines run rest resources r status2
      hfreshB hinitB hp hr hv (hsha ▸ hone) (hrun ▸ hmem) (hrun ▸ hne)
  have hidA : a.RunId = -1 := by rw [hinitA]; rfl
  subst ht1 hc1 ht2 hc2
  obtain ⟨_, hlog1, _⟩ := Tick_ok_inv k ctx a log0 status1 hidA htick1
  obtain ⟨stepId, run1, rest1, _, hfirst⟩ :=
    OnComplete_trigger_ok_inv k ctx _ status1 _ msg1 htrig1 hdone1
  have hone1 : triggerCalls (OnComplete k ctx (Tick k ctx a log0).state status1
      (Tick k ctx a log0).log).log = triggerCalls log0 + 1 := by
    rw [hfirst, resolveRunNumber_triggerCalls, logAfterLatestRun_triggerCalls, hlog1]
  refine ⟨hid.trans hrun, ?_, hcalls, hcalls.trans hone1⟩
  rw [OnComplete_of_not_trigger k ctx _ status2 _ hflag, resolveRunNumber_RunId]
  exact hid.trans hrun

/-- C9, witness: the first invocation triggers and gets run 501; the remote service then
reports run 501 as processing with the head commit; the second invocation selects run 501
and makes no further trigger call. -/
theorem C9_second_invocation_reuses_witness :
    (firstComplete idempotentClient).state.RunId = 501 ∧
    (secondTick idempotentClient).state.RunId = (firstComplete idempotentClient).state.RunId ∧
    (secondComplete idempotentClient).state.RunId
      = (firstComplete idempotentClient).state.RunId ∧
    triggerCalls (secondComplete idempotentClient).log
      = triggerCalls (firstComplete idempotentClient).log ∧
    triggerCalls (secondComplete idempotentClient).log = triggerCalls [] + 1 :=
  ⟨by decide,
    C9_second_invocation_reuses sampleConstants (sampleContext idempotentClient false)
      sampleState preparedState sampleState preparedState []
      (firstTick idempotentClient) (secondTick idempotentClient)
      (firstComplete idempotentClient) (secondComplete idempotentClient)
      { Done := true } { Message := "Found an active run id", Done := true } ""
      { PipelineId := 7 } [] { RunId := 501, RunNumber := 42 } []
      [gitResource 501 "abc"] (gitResource 501 "abc")
      (by decide) rfl rfl (by decide) (by decide) (by decide) (by decide) rfl (by decide)
      rfl rfl (by decide) (by decide) (by decide) (by decide) (by decide) (by decide)
      (by decide)⟩

/-- C9, counterexample: the first invocation triggers and gets run 501.  The remote
service then reports run 501 as processing with a git-repository resource version for the
head commit, and also the more recent run 502 for the same commit.  The second invocation
selects run 502, not run 501. -/
theorem C9_counterexample_more_recent_match :
    sampleState.ShouldTriggerRun = false ∧
    (firstTick raceClient).state.ShouldTriggerRun = true ∧
    (firstComplete raceClient).result = .ok "" ∧
    (firstComplete raceClient).state.RunId = 501 ∧
    triggerCalls (firstComplete raceClient).log = 1 ∧
    (sampleContext raceClient false).HttpClient.GetRuns
      (logAfterPipelines (sampleContext raceClient false) preparedState
        (firstComplete raceClient).log)
      (processingRunsOptions sampleConstants 7)
      = .ok { Runs := [{ RunId := 502, RunNumber := 43 }, { RunId := 501, RunNumber := 42 }] } ∧
    (sampleContext raceClient false).HttpClient.GetRunResourceVersions
      (logAfterRuns sampleConstants (sampleContext raceClient false) preparedState
        (firstComplete raceClient).log 7)
      (runResourcesOptions { preparedState with PipelineId := 7 }
        (runIdStrings [{ RunId := 502, RunNumber := 43 }, { RunId := 501, RunNumber := 42 }]))
      = .ok { Resources := [gitResource 502 "abc", gitResource 501 "abc"] } ∧
    isActiveFor sampleConstants preparedState.HeadCommitSha (gitResource 501 "abc") = true ∧
    (secondTick raceClient).state.RunId = 502 ∧
    (secondComplete raceClient).state.RunId = 502 := by
  decide

open runner

/-- C6: `RunPipe` runs the five commands of `cmds` in order on one state.  If step `k` is
the first to return an error, `RunPipe` returns that error and the commands whose `Run`
was called are exactly those at positions `0, …, k`, each once and in order; `RunPipe`
returns no error if and only if every step returns no error. -/
theorem C6_runpipe_stops_at_first_error (d : Declarations) (ctx : Context)
    (log : List Event) :
    cmds d =
      [ d.NewRetryingPipedCommand "validate git state" d.New001ValidateGitState
          defaultBackoffConfig,
        d.NewRetryingPipedCommand "sync pipelines sources" d.New002PipelinesSourcesBranchSync
          defaultBackoffConfig,
        d.NewRetryingPipedCommand "find or trigger active run" d.New003PipelinesFindRun
          defaultBackoffConfig,
        d.NewRetryingPipedCommand "wait for run to finish" d.New004PipelinesWaitRun
          defaultBackoffConfig,
        d.NewRetryingPipedCommand "print run results" d.New005PipelinesPrintRun
          defaultBackoffConfig ] ∧
    (∀ k e, (∀ j < k, stepSucceeds d ctx log j = true) → stepError d ctx log k = some e →
      (RunPipe d ctx log).err = some e ∧ (RunPipe d ctx log).ran = List.range (k + 1)) ∧
    ((RunPipe d ctx log).err = none ↔ ∀ j < 5, stepSucceeds d ctx log j = true) := by
  refine ⟨rfl, ?_, ?_⟩
  · intro k e hsucc herr
    have h := runLoop_first_error ctx (cmds d) 0 {} log [] k e hsucc herr
    have h2 := h.2
    rw [List.nil_append, ← List.range_eq_range'] at h2
    exact ⟨h.1, h2⟩
  · exact runLoop_success_iff ctx (cmds d) 0 {} log []

/-- C6, witness: the first two steps succeed and run discovery fails with "no pipeline";
`RunPipe` returns that error after calling the commands at positions 0, 1 and 2, and the
last two steps, which would fail too, are not run. -/
theorem C6_runpipe_stops_at_first_error_witness :
    (RunPipe brokenDiscovery (sampleContext triggerClient false) []).err = some "no pipeline" ∧
    (RunPipe brokenDiscovery (sampleContext triggerClient false) []).ran = List.range (2 + 1) :=
  (C6_runpipe_stops_at_first_error brokenDiscovery (sampleContext triggerClient false) []).2.1
    2 "no pipeline"
    (by
      intro j hj
      interval_cases j <;> rfl)
    rfl

/-- C11: on a state with `ShouldTriggerRun = false` and `RunNumber = -1`, `OnComplete`
sends one request, the runs query by `RunId`, and neither the step lookup nor the trigger.
If the answer is empty it fails with "failed to get the triggered run" and the state is
unchanged; otherwise it succeeds and the state differs only in `RunNumber`, which is that
of the first run returned. -/
theorem C11_oncomplete_resolves_run_number (k : Constants) (ctx : Context)
    (st : PipedCommandState) (status : RunStatus) (log : List Event) (rs : List models.Run)
    (hs : st.ShouldTriggerRun = false)
    (hn : st.RunNumber = -1)
    (hruns : ctx.HttpClient.GetRuns log (runByIdOptions st) = .ok { Runs := rs }) :
    (OnComplete k ctx st status log).log = log ++ [Event.GetRuns (runByIdOptions st)] ∧
    (rs = [] →
      (OnComplete k ctx st status log).result = .error "failed to get the triggered run" ∧
      (OnComplete k ctx st status log).state = st) ∧
    (∀ run rest, rs = run :: rest →
      (OnComplete k ctx st status log).result = .ok "" ∧
      (OnComplete k ctx st status log).state = { st with RunNumber := run.RunNumber }) := by
  rw [OnComplete_of_not_trigger k ctx st status log hs]
  unfold resolveRunNumber
  simp only [hn, if_true, hruns]
  cases rs with
  | nil => simp
  | cons run rest =>
    refine ⟨rfl, fun h => by simp at h, ?_⟩
    intro run' rest' h
    simp only [List.cons.injEq] at h
    obtain ⟨h1, _⟩ := h
    subst h1
    exact ⟨rfl, rfl⟩

/-- C11, witness: run 101 was selected; the lookup by id returns it with run number 8. -/
theorem C11_oncomplete_resolves_run_number_witness :
    (OnComplete sampleConstants (sampleContext reuseClient false) reusingState {} []).result
      = .ok "" ∧
    (OnComplete sampleConstants (sampleContext reuseClient false) reusingState {} []).state
      = { reusingState with RunNumber := 8 } :=
  (C11_oncomplete_resolves_run_number sampleConstants (sampleContext reuseClient false)
    reusingState {} [] [{ RunId := 101, RunNumber := 8 }] rfl rfl rfl).2.2
    { RunId := 101, RunNumber := 8 } [] rfl

/-- C12: on a state with `ShouldTriggerRun = true`, when the step lookup returns an empty
list, `OnComplete` fails with the error that names the step to trigger, the state is
unchanged, and the step lookup is the only request: no trigger and no runs query. -/
theorem C12_oncomplete_fails_without_step (k : Constants) (ctx : Context)
    (st : PipedCommandState) (status : RunStatus) (log : List Event)
    (hs : st.ShouldTriggerRun = true)
    (hsteps : ctx.HttpClient.GetPipelinesSteps log (stepsOptions k st) = .ok { Steps := [] }) :
    (OnComplete k ctx st status log).result = .error (stepNotFoundError k) ∧
    (OnComplete k ctx st status log).state = st ∧
    (OnComplete k ctx st status log).log
      = log ++ [Event.GetPipelinesSteps (stepsOptions k st)] := by
  unfold OnComplete
  simp [hs, hsteps, logAfterSteps]

/-- C12, witness: the pipeline has no step named `trigger_all`. -/
theorem C12_oncomplete_fails_without_step_witness :
    (OnComplete sampleConstants (sampleContext noStepClient false) triggeringState {} []).result
      = .error "tried to trigger a run for step 'trigger_all' but coulnd't fetch its Id" ∧
    (OnComplete sampleConstants (sampleContext noStepClient false) triggeringState {} []).state
      = triggeringState ∧
    (OnComplete sampleConstants (sampleContext noStepClient false) triggeringState {} []).log
      = [] ++ [Event.GetPipelinesSteps (stepsOptions sampleConstants triggeringState)] :=
  C12_oncomplete_fails_without_step sampleConstants (sampleContext noStepClient false)
    triggeringState {} [] rfl rfl

/-- C13: the candidate list built by the scan of `Tick` has at most one element; it is
empty when no resource version is of git-repository type with the head commit, and
otherwise holds exactly the `RunId` of the first such resource version in received
order. -/
theorem C13_scan_keeps_first_match (k : Constants) (head : String)
    (resources : List models.RunResourceVersion) :
    (scanResources k head resources []).length ≤ 1 ∧
    scanResources k head resources [] =
      match resources.find? (isActiveFor k head) with
      | some r => [r.RunId]
      | none => [] := by
  rw [scanResources_eq]
  cases resources.find? (isActiveFor k head) <;> simp

/-- C14: when `ShouldTriggerRun` is already true, it is still true after `Init` and after
`Tick`, whatever the remote service answers.  `OnComplete` on the state left by `Tick`
(outcome `t`) then starts with the step lookup, and when the step is found, the trigger
succeeds and the most recently created run is returned, the final `RunId` is the one of
that run, after exactly one trigger call. -/
theorem C14_trigger_flag_survives (k : Constants) (ctx : Context)
    (s0 s : PipedCommandState) (log : List Event) (t : Outcome RunStatus) (status : RunStatus)
    (hflag : s0.ShouldTriggerRun = true)
    (hinit : s = (Init ctx s0 log).state)
    (ht : t = Tick k ctx s log) :
    s.ShouldTriggerRun = true ∧
    t.state.ShouldTriggerRun = true ∧
    logAfterSteps k t.state t.log <+: (OnComplete k ctx t.state status t.log).log ∧
    (∀ step steps run rest,
      ctx.HttpClient.GetPipelinesSteps t.log (stepsOptions k t.state)
        = .ok { Steps := step :: steps } →
      ctx.HttpClient.TriggerPipelinesStep (logAfterSteps k t.state t.log) step.Id = .ok () →
      ctx.HttpClient.GetRuns (logAfterSleep k t.state t.log step.Id) (latestRunOptions t.state)
        = .ok { Runs := run :: rest } →
      (OnComplete k ctx t.state status t.log).state.RunId = run.RunId ∧
      triggerCalls (OnComplete k ctx t.state status t.log).log = triggerCalls t.log + 1) := by
  have hs : s.ShouldTriggerRun = true := by rw [hinit]; exact hflag
  have hT : t.state.ShouldTriggerRun = true := by
    rw [ht]
    exact Tick_keeps_trigger_flag k ctx s log hs
  refine ⟨hs, hT, OnComplete_trigger_starts_with_lookup k ctx t.state status t.log hT, ?_⟩
  intro step steps run rest hsteps htrig hlatest
  rw [OnComplete_of_trigger k ctx t.state status t.log step steps (run :: rest) hT hsteps
    htrig hlatest]
  exact ⟨resolveRunNumber_RunId _ _ _,
    by rw [resolveRunNumber_triggerCalls, logAfterLatestRun_triggerCalls]⟩

/-- C14, witness: the flag is set beforehand and run 101 matches the head commit.  `Tick`
reports "Found an active run id" with `RunId = 101` and the flag is still set;
`OnComplete` triggers and replaces the run id by that of the created run, 501. -/
theorem C14_trigger_flag_survives_witness :
    staleFlagTick.result = .ok { Message := "Found an active run id", Done := true } ∧
    staleFlagTick.state.RunId = 101 ∧
    staleFlagTick.state.ShouldTriggerRun = true ∧
    (OnComplete sampleConstants (sampleContext staleFlagClient false) staleFlagTick.state
      { Message := "Found an active run id", Done := true } staleFlagTick.log).state.RunId
      = 501 ∧
    triggerCalls (OnComplete sampleConstants (sampleContext staleFlagClient false)
      staleFlagTick.state { Message := "Found an active run id", Done := true }
      staleFlagTick.log).log = triggerCalls staleFlagTick.log + 1 :=
  ⟨by decide, by decide,
    (C14_trigger_flag_survives sampleConstants (sampleContext staleFlagClient false)
      flaggedState (Init (sampleContext staleFlagClient false) flaggedState []).state []
      staleFlagTick { Message := "Found an active run id", Done := true }
      rfl rfl rfl).2.1,
    (C14_trigger_flag_survives sampleConstants (sampleContext staleFlagClient false)
      flaggedState (Init (sampleContext staleFlagClient false) flaggedState []).state []
      staleFlagTick { Message := "Found an active run id", Done := true }
      rfl rfl rfl).2.2.2 { Id := 1 } [] { RunId := 501, RunNumber := 42 } []
      (by decide) (by decide) (by decide)⟩

/-- C16: every string of the run-id list of `Tick` is the decimal rendering of the id of
one of the runs, and parsing it back succeeds with that id, so the re-scan never returns
a parse error; the comma-separated list contains neither `[` nor `]`, so trimming the
brackets leaves the `RunIds` parameter of the resource query unchanged. -/
theorem C16_parse_error_unreachable (rs : List models.Run) (active : List Int)
    (st : PipedCommandState) :
    (∀ s ∈ runIdStrings rs, ∃ run ∈ rs,
      s = strconv.Itoa run.RunId ∧ strconv.Atoi s = .ok run.RunId) ∧
    (∃ st', selectRun active (runIdStrings rs) st = .ok st') ∧
    '[' ∉ (strings.Join (runIdStrings rs) ",").data ∧
    ']' ∉ (strings.Join (runIdStrings rs) ",").data ∧
    strings.Trim (strings.Join (runIdStrings rs) ",") "[]"
      = strings.Join (runIdStrings rs) "," ∧
    (runResourcesOptions st (runIdStrings rs)).RunIds
      = strings.Join (runIdStrings rs) "," := by
  have htrim : strings.Trim (strings.Join (runIdStrings rs) ",") "[]"
      = strings.Join (runIdStrings rs) "," := by
    apply strings.Trim_of_no_cut
    intro c hc hcut
    have hb := joined_run_ids_no_bracket rs c hc
    have : c = '[' ∨ c = ']' := by simpa using hcut
    rcases this with h | h
    · exact hb.1 h
    · exact hb.2 h
  refine ⟨?_, ⟨_, selectRun_runIdStrings active rs st⟩, ?_, ?_, htrim, htrim⟩
  · intro s hs
    simp only [runIdStrings, List.mem_map] at hs
    obtain ⟨run, hrun, hs⟩ := hs
    exact ⟨run, hrun, hs.symm, by rw [← hs]; exact strconv.Atoi_Itoa _⟩
  · intro h
    exact (joined_run_ids_no_bracket rs _ h).1 rfl
  · intro h
    exact (joined_run_ids_no_bracket rs _ h).2 rfl

/-- C15: whenever `Tick` returns without error, the returned status has `Done = true`.
Hence, for every backoff configuration, the retrying wrapper around run discovery calls
`Tick` at most once, and its retry loop adds nothing to the log but the requests of that
single `Tick`: no sleep between attempts occurs. -/
theorem C15_tick_always_done (k : Constants) (ctx : Context) (s : PipedCommandState)
    (log : List Event) (label : String) (config : backoffConfig) :
    (∀ status, (Tick k ctx s log).result = .ok status → status.Done = true) ∧
    tickAttempts label (New003GetRun k) config ctx s log ≤ 1 ∧
    (retryTick (New003GetRun k) ctx label config config.maxRetries
        (Init ctx s log).state (Init ctx s log).log 0).log
      = if config.maxRetries = 0 then log else (Tick k ctx (Init ctx s log).state log).log := by
  refine ⟨fun status h => Tick_done k ctx s log status h, ?_, ?_⟩
  · exact (retryTick_discovery k ctx label config config.maxRetries
      (Init ctx s log).state (Init ctx s log).log).1
  · exact (retryTick_discovery k ctx label config config.maxRetries
      (Init ctx s log).state (Init ctx s log).log).2

/-- C15, witness: in the reuse scenario `Tick` returns the status "Found an active run
id", which has `Done = true`, and the wrapped step calls `Tick` at most once under the
default backoff configuration. -/
theorem C15_tick_always_done_witness :
    reuseTick.result = .ok { Message := "Found an active run id", Done := true } ∧
    ({ Message := "Found an active run id", Done := true } : RunStatus).Done = true ∧
    tickAttempts "find or trigger active run" (New003GetRun sampleConstants)
      defaultBackoffConfig (sampleContext reuseClient false) sampleState [] ≤ 1 :=
  ⟨by decide,
    (C15_tick_always_done sampleConstants (sampleContext reuseClient false) preparedState []
      "find or trigger active run" defaultBackoffConfig).1
      { Message := "Found an active run id", Done := true } (by decide),
    (C15_tick_always_done sampleConstants (sampleContext reuseClient false) sampleState []
      "find or trigger active run" defaultBackoffConfig).2.1⟩

end Piperika
